import Mathlib

/-!
Verification of the Generation Orchestration Engine of the
`simplepagegenerator` repository (Python backend under `backend/app/`).

The Python source is shallowly embedded: pure functions become Lean
functions, database rows become records, the mutable database becomes an
explicit `World` value, and calls to the external reasoning service are
modelled as oracle parameters carrying the JSON-parse outcome of the
service's textual reply (`Option Json`: `none` when `json.loads` raises,
which the source code turns into a raised exception, `some j` otherwise).
Exceptions become `Except.error`; an exception path never commits, so the
caller's database state is unchanged there.

JSON numbers are modelled as rationals.  Python `bool` is a subclass of
`int`, so `isinstance(x, (int, float))` accepts booleans; the coercion
`asNum` below reflects that.
-/

set_option autoImplicit false

namespace SPG

/-- JSON values, as produced by `json.loads`.  Objects keep key order;
objects coming from `json.loads` have unique keys (a duplicate key keeps
the last binding, so parsed objects are duplicate-free). -/
inductive Json where
  | null
  | bool (b : Bool)
  | num (q : ℚ)
  | str (s : String)
  | arr (elems : List Json)
  | obj (fields : List (String × Json))

/-- First binding of `key` in an association list (Python dicts keep one
binding per key, so this is plain dict access). -/
def alookup {α : Type} : List (String × α) → String → Option α
  | [], _ => none
  | (k, v) :: rest, key => if k = key then some v else alookup rest key

/-- Position-preserving dict assignment `d[key] = v`: replace the first
binding in place, else append. -/
def dictUpsert {α : Type} : List (String × α) → String → α → List (String × α)
  | [], key, v => [(key, v)]
  | (k, w) :: rest, key, v =>
      if k = key then (key, v) :: rest else (k, w) :: dictUpsert rest key v

/-- Python dict comprehension from a list of pairs (later pairs
overwrite, first occurrence keeps position). -/
def pyDictOf {α : Type} (pairs : List (String × α)) : List (String × α) :=
  pairs.foldl (fun m kv => dictUpsert m kv.1 kv.2) []

namespace Json

/-- First binding of `key` in a JSON object's field list. -/
def jlookup (kvs : List (String × Json)) (key : String) : Option Json :=
  alookup kvs key

/-- Python `d.get(key)` on a JSON object (`none` when the value is not an
object or the key is absent). -/
def getKey? : Json → String → Option Json
  | obj kvs, key => jlookup kvs key
  | _, _ => none

/-- Python `d.get(key, default)`. -/
def getKeyD (j : Json) (key : String) (d : Json) : Json :=
  (j.getKey? key).getD d

/-- Python `d[key] = v` on a JSON object's field list. -/
def setKey (kvs : List (String × Json)) (key : String) (v : Json) :
    List (String × Json) :=
  dictUpsert kvs key v

/-- Python truthiness of a JSON value (`bool(x)`). -/
def pyTruthy : Json → Bool
  | null => false
  | bool b => b
  | num q => q ≠ 0
  | str s => s ≠ ""
  | arr xs => !xs.isEmpty
  | obj kvs => !kvs.isEmpty

/-- Python `isinstance(x, (int, float))` plus conversion.  Python booleans are
integers (`True == 1`), hence the `bool` case. -/
def asNum : Json → Option ℚ
  | num q => some q
  | bool b => some (if b then 1 else 0)
  | _ => none

mutual
/-- Python equality on JSON values (the service only ever applies it to
scalars, but it is total). -/
def beq (x y : Json) : Bool :=
  match x, y with
  | .str u, .str v => u == v
  | .num u, .num v => u == v
  | .bool u, .bool v => u == v
  | .null, .null => true
  | .arr us, .arr vs => beqList us vs
  | .obj fs, .obj gs => beqObj fs gs
  | _, _ => false

/-- Elementwise Python equality on JSON lists. -/
def beqList (us vs : List Json) : Bool :=
  match us, vs with
  | [], [] => true
  | u :: urest, v :: vrest => beq u v && beqList urest vrest
  | _, _ => false

/-- Fieldwise Python equality on object field lists. -/
def beqObj (fs gs : List (String × Json)) : Bool :=
  match fs, gs with
  | [], [] => true
  | (k, u) :: frest, (k', v) :: grest =>
      k == k' && beq u v && beqObj frest grest
  | _, _ => false
end

end Json

/-! String helpers mirroring the Python string operations used. -/

/-- Substring containment (`needle in hay`), on character lists. -/
def containsSubAux (needle : List Char) : List Char → Bool
  | [] => needle.isEmpty
  | c :: rest => needle.isPrefixOf (c :: rest) || containsSubAux needle rest

/-- Python `needle in hay` for strings. -/
def containsSub (hay needle : String) : Bool :=
  containsSubAux needle.data hay.data

/-- Python `s.startswith(p)`. -/
def pyStartsWith (s p : String) : Bool :=
  p.data.isPrefixOf s.data

/-- Python `s.endswith(p)`. -/
def pyEndsWith (s p : String) : Bool :=
  p.data.isSuffixOf s.data

/-- Python `s.lstrip("./")`: drop leading `.` and `/` characters. -/
def lstripDotSlash (s : String) : String :=
  String.mk (s.data.dropWhile (fun c => c = '.' ∨ c = '/'))

/-! Build Validator — `app/services/build_service.py`.

`BuildResult` is the pydantic schema from `app/schemas/pipeline.py`.
`check_forbidden_patterns` runs Python `re` patterns whose only use is to
produce warnings; the claims quantify over an arbitrary warning checker,
so it is a parameter `checkForbidden` of `validate_build` here. -/

structure BuildResult where
  success : Bool
  errors : List String
  warnings : List String

/-- Source `validate_html` from `build_service.py`. -/
def validate_html (content : String) : List String :=
  (if ¬containsSub content "<!DOCTYPE html>" ∧ ¬containsSub content "<html"
   then ["Missing <!DOCTYPE html> or <html> tag"] else []) ++
  (if ¬containsSub content "<head" then ["Missing <head> section"] else []) ++
  (if ¬containsSub content "<body" then ["Missing <body> section"] else [])

/-- One match attempt of the regex `(?:src|href)=["\x27]([^"\x27]+)["\x27]`
at the head of `cs`: on success, the captured reference and the rest of
the input after the match. -/
def refAt (cs : List Char) : Option (List Char × List Char) :=
  let afterKey : Option (List Char) :=
    if "src=".data.isPrefixOf cs then some (cs.drop 4)
    else if "href=".data.isPrefixOf cs then some (cs.drop 5)
    else none
  match afterKey with
  | none => none
  | some rest =>
    match rest with
    | [] => none
    | q :: rest2 =>
      if q = '"' ∨ q = '\'' then
        let body := rest2.takeWhile (fun c => ¬(c = '"' ∨ c = '\''))
        let rest3 := rest2.drop body.length
        match rest3 with
        | [] => none
        | _ :: rest4 => if body.isEmpty then none else some (body, rest4)
      else none

/-- Semantics of `re.findall` for the reference pattern: leftmost matches,
non-overlapping, scanning left to right.  `fuel` only bounds the
recursion; every step consumes at least one character, so `fuel =
cs.length` scans the whole input. -/
def findRefsAux : Nat → List Char → List String
  | 0, _ => []
  | _ + 1, [] => []
  | fuel + 1, c :: rest =>
    match refAt (c :: rest) with
    | some (body, rest4) => String.mk body :: findRefsAux fuel rest4
    | none => findRefsAux fuel rest

/-- Every `src=`/`href=` attribute value found in `html`
(`re.findall(r'(?:src|href)=["\x27]([^"\x27]+)["\x27]', html_content)`). -/
def findRefs (html : String) : List String :=
  findRefsAux html.data.length html.data

/-- The exempt URL prefixes of `check_file_references`
(`ref.startswith(("http://", "https://", "data:", "#", "mailto:"))`). -/
def isExemptRef (ref : String) : Bool :=
  pyStartsWith ref "http://" || pyStartsWith ref "https://" ||
  pyStartsWith ref "data:" || pyStartsWith ref "#" ||
  pyStartsWith ref "mailto:"

/-- Source `check_file_references` from `build_service.py`.  The Python
`available_files` set is modelled as a list with membership. -/
def check_file_references (html : String) (available : List String) :
    List String :=
  (findRefs html).filterMap (fun ref =>
    if isExemptRef ref then none
    else
      let clean := lstripDotSlash ref
      if clean ≠ "" ∧ clean ∉ available then
        some ("Referenced file not found: " ++ ref)
      else none)

/-- A file dict of the build pipeline (`{"file_path": ..., "content": ...,
"file_type": ...}`). -/
structure BFile where
  file_path : String
  content : String
  file_type : String

/-- Source `validate_build` from `build_service.py`, parameterized by the
warning checker (`check_forbidden_patterns` in the source; its output is
only ever appended to `warnings`). -/
def validate_build (checkForbidden : String → String → List String)
    (files : List BFile) : BuildResult :=
  let available := files.map (·.file_path)
  let errors :=
    (files.flatMap (fun f =>
      if f.file_path = "index.html" then
        validate_html f.content ++ check_file_references f.content available
      else [])) ++
    (if files.any (fun f => f.file_path = "index.html") then []
     else ["Missing index.html"])
  let warnings :=
    files.flatMap (fun f => checkForbidden f.content f.file_path)
  { success := errors.isEmpty, errors := errors, warnings := warnings }

/-! Cross-project feel profile — `app/services/feel_defaults.py`.

`aggregate_user_feel_profile` scans the most recent (≤ 50) memory notes
and (≤ 10) preference rows.  The model takes the scanned notes'
`content_json` values directly; profile fields not involved in any claim
(device/input/session votes, likes/dislikes, gravity average, feedback
level) are outside the model.  `round(avg_ratio, 2)` only affects the
reported `avg_drag_ratio`, not the comparisons deciding
`style_tendency`. -/

/-- The drag/accel ratio contributed by one note's
`feel_spec.movement_model` (`accel = mm.get("accel", 0)`,
`drag = mm.get("drag", 0)`, appended when both are numbers and
`accel > 0`). -/
def noteDragRatio (cj : Json) : Option ℚ :=
  match cj with
  | .obj _ =>
    match cj.getKey? "feel_spec" with
    | some fs =>
      match fs.getKey? "movement_model" with
      | some mm =>
        match mm with
        | .obj _ =>
          match (mm.getKeyD "accel" (.num 0)).asNum,
                (mm.getKeyD "drag" (.num 0)).asNum with
          | some accel, some drag =>
            if accel > 0 then some (drag / accel) else none
          | _, _ => none
        | _ => none
      | none => none
    | none => none
  | _ => none

/-- The `drag_ratios` list collected over the scanned notes (one ratio at most per
note, in scan order; non-dict `content_json` is skipped). -/
def dragRatios (notes : List Json) : List ℚ :=
  notes.filterMap noteDragRatio

/-- The `default_preset` vote contributed by one note
(`fs.get("tuning")`, counted when it is a dict with a truthy
`default_preset`).  The vote key is the preset value; the source uses it
as a dict key, so it is a string there. -/
def notePresetVote (cj : Json) : Option Json :=
  match cj with
  | .obj _ =>
    match cj.getKey? "feel_spec" with
    | some fs =>
      match fs.getKey? "tuning" with
      | some tun =>
        match tun with
        | .obj _ =>
          match tun.getKey? "default_preset" with
          | some p => if p.pyTruthy then some p else none
          | none => none
        | _ => none
      | none => none
    | none => none
  | _ => none

/-- Keys of a vote multiset in first-occurrence order (Python dict
insertion order). -/
def firstOccKeys : List String → List String
  | [] => []
  | x :: xs => x :: firstOccKeys (xs.filter (· ≠ x))
termination_by l => l.length
decreasing_by
  exact Nat.lt_succ_of_le (List.length_filter_le _ _)

/-- Python `max(votes, key=votes.get)`: the first key (in insertion order)
carrying the maximal count. -/
def maxVote (votes : List String) : Option String :=
  let keys := firstOccKeys votes
  keys.foldl
    (fun best k =>
      match best with
      | none => some k
      | some b =>
        if (votes.count k) > (votes.count b) then some k else some b)
    none

/-- The `preset_votes` keys as strings (`default_preset` values; the source
stores them as dict keys).  Non-string presets cannot key a JSON-derived
dict in the scanned notes, so only string votes are collected. -/
def presetVotes (notes : List Json) : List String :=
  notes.filterMap (fun cj =>
    match notePresetVote cj with
    | some (.str s) => some s
    | _ => none)

/-- The `style_tendency` field of `aggregate_user_feel_profile`: set from
the average drag ratio when any ratios were collected (`≥ 0.85` tight,
`≤ 0.5` floaty, else arcade), otherwise from the preferred preset when
preset votes exist, otherwise left `None`. -/
def aggregate_user_feel_profile_style (notes : List Json) : Option String :=
  let ratios := dragRatios notes
  if ratios.isEmpty then maxVote (presetVotes notes)
  else
    let avg := ratios.sum / (ratios.length : ℚ)
    if avg ≥ 85 / 100 then some "tight"
    else if avg ≤ 1 / 2 then some "floaty"
    else some "arcade"

/-! Chat build-fix loop — `app/pipeline/orchestrator.py`.

`run_pipeline`'s stage 4 (validate + fix, lines 131–167) and the version
save that follows.  The fix stage (`fix_agent.fix_errors`) streams file
operations and may raise; it is modelled as an oracle returning the file
list after applying its operations plus a flag telling whether it ended
in an exception (in which case the loop breaks with the already-applied
mutations kept, exactly as the source's in-place `apply_file_ops`
updates survive the `break`). -/

/-- A file operation produced by the builder or fix stage. -/
inductive FileOp where
  | write (file_path content : String)
  | delete (file_path : String)

/-- Extension suffix: `path.rsplit(".", 1)[-1] if "." in path else ""`. -/
def extOf (path : String) : String :=
  let parts := path.splitOn "."
  if parts.length ≥ 2 then parts.getLastD "" else ""

/-- The mime map of `apply_file_ops`. -/
def mimeOf (path : String) : String :=
  let ext := extOf path
  if ext = "html" then "text/html"
  else if ext = "css" then "text/css"
  else if ext = "js" then "application/javascript"
  else "text/plain"

/-- Source `apply_file_ops` from `orchestrator.py`: build a dict keyed by
`file_path` (later duplicates overwrite, keeping position), apply the
operations, return the values. -/
def apply_file_ops (current : List BFile) (ops : List FileOp) : List BFile :=
  let files_map :=
    current.foldl (fun m f => dictUpsert m f.file_path f) []
  let files_map :=
    ops.foldl
      (fun m op =>
        match op with
        | .write p c =>
            dictUpsert m p { file_path := p, content := c, file_type := mimeOf p }
        | .delete p => m.filter (fun kv => kv.1 ≠ p))
      files_map
  files_map.map (·.2)

/-- Constant `MAX_FIX_RETRIES` from `orchestrator.py`. -/
def MAX_FIX_RETRIES : Nat := 3

/-- Outcome of the validate + fix loop: final file list, the file list at
the moment of the last `validate_build` call, that call's result, and how
many times the fix stage was invoked. -/
structure FixLoopResult where
  files : List BFile
  lastValidated : List BFile
  result : BuildResult
  fixCalls : Nat

/-- One run of `for attempt in range(MAX_FIX_RETRIES + 1)` from
`run_pipeline`.  `rem` is the number of iterations left
(`MAX_FIX_RETRIES + 1 - attempt`); `fix attempt errors files` returns the
files after the fix stage's operations were applied and whether the fix
stage raised (the source then breaks out of the loop). -/
def fixLoopGo (checkForbidden : String → String → List String)
    (fix : Nat → List String → List BFile → List BFile × Bool) :
    Nat → Nat → List BFile → Nat → FixLoopResult
  | 0, _, files, calls =>
      { files := files, lastValidated := files,
        result := validate_build checkForbidden files, fixCalls := calls }
  | rem + 1, attempt, files, calls =>
      let br := validate_build checkForbidden files
      if br.success then
        { files := files, lastValidated := files, result := br,
          fixCalls := calls }
      else if attempt < MAX_FIX_RETRIES then
        let (files', raised) := fix attempt br.errors files
        if raised then
          { files := files', lastValidated := files, result := br,
            fixCalls := calls + 1 }
        else fixLoopGo checkForbidden fix rem (attempt + 1) files' (calls + 1)
      else
        { files := files, lastValidated := files, result := br,
          fixCalls := calls }

/-- Stage 4 of `run_pipeline`: validate-and-fix on the files produced by
the builder. -/
def run_pipeline_fix_loop (checkForbidden : String → String → List String)
    (fix : Nat → List String → List BFile → List BFile × Bool)
    (updated_files : List BFile) : FixLoopResult :=
  fixLoopGo checkForbidden fix (MAX_FIX_RETRIES + 1) 0 updated_files 0

/-- The version record persisted at the end of `run_pipeline` (its
file-set, build-status and build-log fields). -/
structure SavedVersion where
  files : List BFile
  build_status : String
  build_log : Option String

/-- The `create_version` call at the end of `run_pipeline`:
`build_status="success" if build_result.success else "failed"`,
`build_log="\n".join(build_result.errors) if build_result.errors else
None`. -/
def persist_pipeline_version (r : FixLoopResult) : SavedVersion :=
  { files := r.files,
    build_status := if r.result.success then "success" else "failed",
    build_log :=
      if r.result.errors.isEmpty then none
      else some (String.intercalate "\n" r.result.errors) }

/-! Memory tool-call loop — `exploration_service._call_openai_with_tools`.

The reasoning service's successive replies are an oracle
`responses : Nat → ToolMsg`; `responses k` is the reply to the
`k + 1`-st API call.  The loop `while msg.tool_calls and rounds < 3`
executes every tool call of the current message each round. -/

/-- One reasoning-service reply in the tool protocol: the tool
invocations it requests and the JSON-parse outcome of its text content
(`msg.content or "{}"` parses to an empty object when content is
absent). -/
structure ToolMsg where
  tool_calls : List String
  content : Option Json

/-- The tool-call loop body; `fuel = 3 - rounds` (the loop guard
`rounds < 3`). -/
def toolLoopGo (responses : Nat → ToolMsg) :
    Nat → Nat → ToolMsg → Nat × ToolMsg
  | 0, rounds, msg => (rounds, msg)
  | fuel + 1, rounds, msg =>
      if msg.tool_calls.isEmpty then (rounds, msg)
      else toolLoopGo responses fuel (rounds + 1) (responses (rounds + 1))

/-- Source `_call_openai_with_tools`: first call, then up to 3 tool rounds, then
the final content is stripped and `json.loads`-parsed (raising on
failure).  Returns the number of executed tool rounds with the parse
outcome. -/
def call_openai_with_tools (responses : Nat → ToolMsg) :
    Nat × Except String Json :=
  let (rounds, msg) := toolLoopGo responses 3 0 (responses 0)
  (rounds,
   match msg.content with
   | none => .error "json.JSONDecodeError"
   | some j => .ok j)

/-! Exploration engine — `app/services/exploration_service.py`.

Database rows become records; UUIDs become naturals; the database becomes
the explicit `World` below.  Each operation returns
`Except String (World × result)`: an `Except.error` is a raised Python
exception, on which `db.commit()` is never reached, so the caller's
database state is unchanged.  `datetime.now(timezone.utc)` is an explicit
`now : Int` parameter measured in minutes, so `timedelta(minutes=30)` is
`30`. -/

/-- A reasoning-service reply, abstracted to the outcome of `json.loads`
on the (fence-stripped) text: `none` when parsing raises
`json.JSONDecodeError`. -/
abbrev Reply := Option Json

/-- Source `_call_openai_json` (and the final content parse of
`_call_openai_with_tools`): the parsed JSON, or a raised
`json.JSONDecodeError`. -/
def call_openai_json (reply : Reply) : Except String Json :=
  match reply with
  | none => .error "json.JSONDecodeError"
  | some j => .ok j

/-- Source `generate_feel_spec` (Stage D): the parsed reply when it is a
dict, `{}` otherwise; a non-parseable reply raises. -/
def generate_feel_spec (reply : Reply) : Except String Json := do
  let result ← call_openai_json reply
  match result with
  | .obj _ => pure result
  | _ => pure (Json.obj [])

/-- Source `generate_game` (Stage E): same reply handling as Stage D. -/
def generate_game (reply : Reply) : Except String Json := do
  let result ← call_openai_json reply
  match result with
  | .obj _ => pure result
  | _ => pure (Json.obj [])

/-- Source `synthesize_branches` (Stage B), applied to the parsed reply
of `_call_openai_with_tools`: a dict containing `branches` yields that
value, a list yields itself, any other parsed value yields the empty
list; a non-parseable reply raises out of `_call_openai_with_tools`. -/
def synthesize_branches (reply : Reply) : Except String Json := do
  let result ← call_openai_json reply
  match result with
  | .obj kvs =>
    match Json.jlookup kvs "branches" with
    | some b => pure b
    | none => pure (Json.arr [])
  | .arr xs => pure (Json.arr xs)
  | _ => pure (Json.arr [])

/-- Source `map_options` (Stage C) reply handling: extract
`(options, recommended_option_id)` and mark the recommended option.
Marking mutates every option dict, so a non-dict element (or a non-list
`options` value) raises there; a truthy non-empty-string iterable behaves
likewise. -/
def map_options (reply : Reply) : Except String (Json × Json) := do
  let result ← call_openai_json reply
  let options : Json :=
    match result with
    | .obj kvs => (Json.jlookup kvs "options").getD (.arr [])
    | .arr xs => .arr xs
    | _ => .arr []
  let recommended : Json :=
    match result with
    | .obj kvs => (Json.jlookup kvs "recommended_option_id").getD .null
    | _ => .null
  if recommended.pyTruthy then
    match options with
    | .arr opts => do
      let opts' ← opts.mapM (fun opt =>
        match opt with
        | .obj kvs =>
          pure (Json.obj (Json.setKey kvs "is_recommended"
            (.bool (Json.beq ((Json.jlookup kvs "option_id").getD .null)
              recommended))))
        | _ => Except.error "TypeError")
      pure (Json.arr opts', recommended)
    | _ => Except.error "TypeError"
  else
    pure (options, recommended)

/-! Intent parsing — `app/pipeline/intent_parser.py`. -/

/-- Pydantic schema `IntentResult` from `app/schemas/pipeline.py`. -/
structure IntentResult where
  intent_type : String
  complexity : String
  affected_areas : List String
  summary : String

/-- The fallback `IntentResult` built in `parse_intent`'s `except`
branch. -/
def defaultIntent (message : String) : IntentResult :=
  { intent_type := "other", complexity := "simple",
    affected_areas := [], summary := message }

/-- Pydantic validation of `IntentResult(**data)` for a JSON object:
`intent_type` and `complexity` must be strings, `affected_areas` (default
`[]`) a list of strings, `summary` (default `""`) a string; extra keys
are ignored.  `none` is a `ValidationError` (a `ValueError`). -/
def validateIntent (kvs : List (String × Json)) : Option IntentResult :=
  match Json.jlookup kvs "intent_type", Json.jlookup kvs "complexity" with
  | some (.str it), some (.str cx) =>
    let aa : Option (List String) :=
      match Json.jlookup kvs "affected_areas" with
      | none => some []
      | some (.arr xs) =>
          xs.mapM (fun x => match x with | .str s => some s | _ => none)
      | some _ => none
    let sm : Option String :=
      match Json.jlookup kvs "summary" with
      | none => some ""
      | some (.str s) => some s
      | some _ => none
    match aa, sm with
    | some aa, some sm =>
      some { intent_type := it, complexity := cx,
             affected_areas := aa, summary := sm }
    | _, _ => none
  | _, _ => none

/-- Source `parse_intent`: a non-parseable reply
(`json.JSONDecodeError`) and a JSON object failing validation
(`ValidationError ⊆ ValueError`) are both caught and degrade to the
default intent; a parsed reply that is not an object reaches
`IntentResult(**data)` with a non-mapping and raises a `TypeError`,
which the `except (json.JSONDecodeError, ValueError)` clause does not
catch. -/
def parse_intent (reply : Reply) (message : String) :
    Except String IntentResult :=
  match reply with
  | none => .ok (defaultIntent message)
  | some (.obj kvs) =>
    match validateIntent kvs with
    | some r => .ok r
    | none => .ok (defaultIntent message)
  | some _ => .error "TypeError"

/-! Database rows of the exploration engine
(`app/models/exploration.py`, `app/models/project*.py`). -/

structure SessionRow where
  id : Nat
  project_id : Nat
  user_input : String
  ambiguity_json : Option Json
  state : String
  selected_option_id : Option String
  hypothesis_ledger : Option Json
  iteration_count : Nat

structure OptionRow where
  session_id : Nat
  option_id : String
  title : String
  core_loop : String
  controls : String
  mechanics : Json
  template_id : String
  complexity : String
  mobile_fit : String
  assumptions_to_validate : Option Json
  is_recommended : Bool

structure ProjectRow where
  id : Nat
  current_version_id : Option Nat
  status : String

structure VersionRow where
  id : Nat
  project_id : Nat
  build_status : String

structure FileRow where
  version_id : Nat
  file_path : String
  content : String
  file_type : String
  deriving DecidableEq

structure NoteRow where
  project_id : Nat
  content_json : Json
  tags : List String
  confidence : ℚ
  source_version_id : Option Nat
  source_session_id : Option Nat

structure PrefRow where
  project_id : Nat
  preference_json : Json

structure KVRow where
  cache_key : String
  value_text : String
  meta_json : Option Json
  expires_at : Option Int

/-- The database state seen by the exploration service.
`next_version_id` models the autoincrement id handed out by
`db.flush()`. -/
structure World where
  sessions : List SessionRow
  options : List OptionRow
  projects : List ProjectRow
  versions : List VersionRow
  files : List FileRow
  notes : List NoteRow
  prefs : List PrefRow
  kv : List KVRow
  next_version_id : Nat

/-- Python `x or {}` on an optional JSON column. -/
def jsonOrEmptyObj : Option Json → Json
  | some j => if j.pyTruthy then j else .obj []
  | none => .obj []

/-- Python `len()` of the JSON values it is applied to in the engine
(dicts, lists, strings; other values would raise a `TypeError`, never
reached by the modelled flows). -/
def pyLenD : Json → Nat
  | .obj kvs => kvs.length
  | .arr xs => xs.length
  | .str s => s.length
  | _ => 0

/-- Python `f"...{v}..."` string conversion of the JSON preference
values used in tags (strings in every modelled flow). -/
def pyStrOf : Json → String
  | .str s => s
  | .bool b => if b then "True" else "False"
  | .num q => toString q
  | _ => ""

/-- Source `_extract_tags` from `exploration_service.py`. -/
def extract_tags (content : Json) : List String :=
  let prefs := content.getKeyD "user_preferences" (.obj [])
  let tagOf (key prefix_ : String) : List String :=
    match prefs.getKey? key with
    | some v => if v.pyTruthy then [prefix_ ++ pyStrOf v] else []
    | none => []
  tagOf "platform" "platform:" ++ tagOf "input" "input:" ++
  tagOf "pace" "pace:" ++
  (let choice := content.getKeyD "final_choice" (.obj [])
   match choice.getKey? "option_id" with
   | some v => if v.pyTruthy then ["chosen:" ++ pyStrOf v] else []
   | none => [])

/-- The `index.html` value extracted from a generated file map with
`generated.get("index.html", "")`.  A truthy non-string value would fail
at the DB layer when written to the `Text` column; a falsy one behaves
like the empty string. -/
def htmlField (generated : Json) : Except String String :=
  match generated.getKey? "index.html" with
  | some (.str s) => pure s
  | some j => if j.pyTruthy then Except.error "DB type error" else pure ""
  | none => pure ""

/-- Result dict of `select_option`. -/
structure SelectResult where
  session_id : Nat
  option_id : String
  version_id : Nat
  state : String

/-- Source `select_option` from `exploration_service.py` (lines
1103–1261): load the session and option, run Stage D and Stage E on the
given oracle replies, persist a new version (status `success`) with the
generated `index.html`, point the project at it, set
`selected_option_id` and `state = "committed"`, reset the hypothesis
ledger, and append a design-decision memory note.  The current session
state is never consulted. -/
def select_option (w : World) (project_id session_id : Nat)
    (option_id : String) (replyD replyE : Reply) :
    Except String (World × SelectResult) := do
  match w.sessions.find? (fun s => s.id == session_id) with
  | none => Except.error "Session not found"
  | some session => do
    let option_row :=
      w.options.find? (fun o =>
        o.session_id == session_id && o.option_id == option_id)
    let feel_spec ← generate_feel_spec replyD
    let generated ← generate_game replyE
    let version : VersionRow :=
      { id := w.next_version_id, project_id := project_id,
        build_status := "success" }
    let html ← htmlField generated
    let files' :=
      if html ≠ "" then
        w.files ++ [{ version_id := version.id, file_path := "index.html",
                      content := html, file_type := "text/html" }]
      else w.files
    let projects' :=
      w.projects.map (fun p =>
        if p.id == project_id then
          { p with current_version_id := some version.id,
                   status := "running" }
        else p)
    let ledger : Json :=
      .obj [("validated", .arr []), ("rejected", .arr []),
            ("open_questions", .arr []), ("feel_spec", feel_spec)]
    let sessions' :=
      w.sessions.map (fun s =>
        if s.id == session_id then
          { s with selected_option_id := some option_id,
                   state := "committed",
                   hypothesis_ledger := some ledger }
        else s)
    let all_options := w.options.filter (fun o => o.session_id == session_id)
    let options_summary : Json :=
      .arr (all_options.map (fun o =>
        .obj [("option_id", .str o.option_id), ("title", .str o.title),
              ("core_loop", .str o.core_loop),
              ("controls", .str o.controls),
              ("is_recommended", .bool o.is_recommended)]))
    let titleD :=
      match option_row with
      | some o => o.title
      | none => option_id
    let decomposition := jsonOrEmptyObj session.ambiguity_json
    let dims := decomposition.getKeyD "dimensions" (.obj [])
    let option_spec_fields : List (String × Json) :=
      match option_row with
      | some o =>
        [("title", .str o.title), ("core_loop", .str o.core_loop),
         ("controls", .str o.controls), ("mechanics", o.mechanics),
         ("complexity", .str o.complexity),
         ("mobile_fit", .str o.mobile_fit)]
      | none => []
    let memory_content : Json :=
      .obj [
        ("title", .str ("Design Decision: " ++ titleD)),
        ("summary", .str
          ("User requested: \"" ++ session.user_input ++
           "\". Decomposed into " ++ toString (pyLenD dims) ++
           " dimensions. Selected \"" ++ titleD ++ "\" from " ++
           toString all_options.length ++ " options.")),
        ("type", .str "design_decision"),
        ("user_input", .str session.user_input),
        ("decomposition_summary", decomposition.getKeyD "summary" (.str "")),
        ("dimensions",
          match dims with
          | .obj kvs => .arr (kvs.map (fun kv => .str kv.1))
          | _ => .arr []),
        ("hard_constraints",
          decomposition.getKeyD "hard_constraints" (.arr [])),
        ("locked", (decomposition.getKey? "locked").getD .null),
        ("options_considered", options_summary),
        ("selected_option", .obj (option_spec_fields ++
          [("option_id", .str option_id),
           ("assumptions_to_validate",
             match option_row with
             | some o =>
               match o.assumptions_to_validate with
               | some a => if a.pyTruthy then a else .arr []
               | none => .arr []
             | none => .arr [])])),
        ("user_preferences", .obj []),
        ("final_choice", .obj [
          ("option_id", .str option_id),
          ("why", .str
            (match option_row with
             | some o =>
               if o.is_recommended then "Recommended by system"
               else "User selected manually"
             | none => "User selected manually"))]),
        ("validated_hypotheses", .arr []),
        ("rejected_hypotheses", .arr []),
        ("key_decisions", .arr [.obj [
          ("decision", .str ("Selected " ++ titleD)),
          ("reason", .str ("Core loop: " ++
            (match option_row with
             | some o => o.core_loop | none => ""))),
          ("evidence", .str ("Controls: " ++
            (match option_row with
             | some o => o.controls | none => "") ++ ", Complexity: " ++
            (match option_row with
             | some o => o.complexity | none => "")))]]),
        ("feel_spec", feel_spec),
        ("pitfalls_and_guards", .arr []),
        ("refs", .obj [
          ("exploration_session_id", .num session.id),
          ("stable_version_id", .num version.id)]),
        ("confidence", .num (6 / 10))]
    let note : NoteRow :=
      { project_id := project_id, content_json := memory_content,
        tags := extract_tags memory_content ++ ["type:design_decision"],
        confidence := 6 / 10, source_version_id := some version.id,
        source_session_id := some session.id }
    pure
      ({ w with
          sessions := sessions', projects := projects', files := files',
          versions := w.versions ++ [version], notes := w.notes ++ [note],
          next_version_id := w.next_version_id + 1 },
       { session_id := session.id, option_id := option_id,
         version_id := version.id, state := "committed" })

/-- Result dict of `iterate`. -/
structure IterateResult where
  session_id : Nat
  version_id : Nat
  iteration_count : Nat
  state : String

/-- Source `iterate` from `exploration_service.py` (lines 1266–1343):
load the session and the project's current version files, ask the
reasoning service for modifications, and create a new version holding,
for every path of the current version, `modifications.get(fp, content)`
— paths only present in the reply are never added.  Then bump the
iteration counter, set `state = "iterating"` and append the request to
the ledger's `open_questions`.  A replacement value that is not a string
cannot be written to the `Text` content column; it is modelled as
keeping the previous content (no claim exercises that path).  The
current session state is never consulted. -/
def iterate (w : World) (project_id session_id : Nat) (user_input : String)
    (replyI : Reply) : Except String (World × IterateResult) := do
  match w.sessions.find? (fun s => s.id == session_id) with
  | none => Except.error "Session not found"
  | some session => do
    match w.projects.find? (fun p => p.id == project_id) with
    | none => Except.error "No current version"
    | some project => do
      match project.current_version_id with
      | none => Except.error "No current version"
      | some cvid => do
        let current_files := w.files.filter (fun f => f.version_id == cvid)
        let files_context :=
          current_files.foldl
            (fun m f => dictUpsert m f.file_path f.content) []
        let modifications ← call_openai_json replyI
        let mods ← match modifications with
          | .obj kvs => pure kvs
          | _ => Except.error "AttributeError"
        let new_version : VersionRow :=
          { id := w.next_version_id, project_id := project_id,
            build_status := "success" }
        let newFiles : List FileRow :=
          files_context.map (fun fc =>
            let new_content :=
              match Json.jlookup mods fc.1 with
              | some (.str s) => s
              | _ => fc.2
            { version_id := new_version.id, file_path := fc.1,
              content := new_content,
              file_type :=
                if pyEndsWith fc.1 ".html" then "text/html"
                else "application/javascript" })
        let projects' :=
          w.projects.map (fun p =>
            if p.id == project_id then
              { p with current_version_id := some new_version.id }
            else p)
        let defaultLedger : Json :=
          .obj [("validated", .arr []), ("rejected", .arr []),
                ("open_questions", .arr [])]
        let ledgerBase :=
          match session.hypothesis_ledger with
          | some j => if j.pyTruthy then j else defaultLedger
          | none => defaultLedger
        let kvsL ← match ledgerBase with
          | .obj kvs => pure kvs
          | _ => Except.error "TypeError"
        let oq ← match Json.jlookup kvsL "open_questions" with
          | some (.arr xs) => pure xs
          | some _ => Except.error "AttributeError"
          | none => Except.error "KeyError"
        let ledger' : Json :=
          .obj (Json.setKey kvsL "open_questions"
            (.arr (oq ++ [.str user_input])))
        let sessions' :=
          w.sessions.map (fun s =>
            if s.id == session_id then
              { s with iteration_count := s.iteration_count + 1,
                       state := "iterating",
                       hypothesis_ledger := some ledger' }
            else s)
        pure
          ({ w with
              sessions := sessions', projects := projects',
              versions := w.versions ++ [new_version],
              files := w.files ++ newFiles,
              next_version_id := w.next_version_id + 1 },
           { session_id := session.id, version_id := new_version.id,
             iteration_count := session.iteration_count + 1,
             state := "iterating" })

/-- Result dict of `finish_exploration` (the memory-note payload is kept
in the world's note list). -/
structure FinishResult where
  session_id : Nat
  state : String

/-- Source `finish_exploration` from `exploration_service.py` (lines
1348–1438): ask the reasoning service for a consolidated memory note,
attach back-references, persist it, upsert the preference row when the
note carries `user_preferences`, and set `state = "stable"`.  The
current session state is never consulted.  A parsed reply that is not a
dict raises on the `memory_content["refs"] = ...` assignment. -/
def finish_exploration (w : World) (project_id session_id : Nat)
    (replyF : Reply) : Except String (World × FinishResult) := do
  match w.sessions.find? (fun s => s.id == session_id) with
  | none => Except.error "Session not found"
  | some session => do
    let stable_version_id :=
      match w.projects.find? (fun p => p.id == project_id) with
      | some p => p.current_version_id
      | none => none
    let mc ← call_openai_json replyF
    let kvs ← match mc with
      | .obj kvs => pure kvs
      | _ => Except.error "TypeError"
    let kvs' :=
      Json.setKey kvs "refs"
        (.obj [("exploration_session_id", .num session.id),
               ("stable_version_id",
                 match stable_version_id with
                 | some v => .num v
                 | none => .null)])
    let mc' : Json := .obj kvs'
    let confidence : ℚ :=
      match Json.jlookup kvs' "confidence" with
      | some v => (v.asNum).getD (8 / 10)
      | none => 8 / 10
    let note : NoteRow :=
      { project_id := project_id, content_json := mc',
        tags := extract_tags mc', confidence := confidence,
        source_version_id := stable_version_id,
        source_session_id := some session.id }
    let upsertPrefs :=
      match Json.jlookup kvs' "user_preferences" with
      | some v => v.pyTruthy
      | none => false
    let prefs' :=
      if upsertPrefs then
        let pj := (Json.jlookup kvs' "user_preferences").getD .null
        if w.prefs.any (fun p => p.project_id == project_id) then
          w.prefs.map (fun p =>
            if p.project_id == project_id then
              { p with preference_json := pj }
            else p)
        else w.prefs ++ [{ project_id := project_id, preference_json := pj }]
      else w.prefs
    let sessions' :=
      w.sessions.map (fun s =>
        if s.id == session_id then { s with state := "stable" } else s)
    pure
      ({ w with sessions := sessions', notes := w.notes ++ [note],
                prefs := prefs' },
       { session_id := session.id, state := "stable" })

/-! Preview Cache and runtime-fix loop —
`exploration_service.get_cached_preview`, `preview_option`,
`fix_preview`. -/

/-- Cache key `f"preview:-session_id-:-option_id-"`. -/
def previewKey (session_id : Nat) (option_id : String) : String :=
  "preview:" ++ toString session_id ++ ":" ++ option_id

/-- Source `get_cached_preview` (lines 1543–1553): `None` on a missing
row; `None` when `expires_at` is set and strictly in the past (lazy
expiry); the stored content otherwise. -/
def get_cached_preview (now : Int) (w : World) (cache_key : String) :
    Option String :=
  match w.kv.find? (fun r => r.cache_key == cache_key) with
  | none => none
  | some row =>
    match row.expires_at with
    | some t => if t < now then none else some row.value_text
    | none => some row.value_text

/-- Source `preview_option` (lines 1556–1639): return the cached preview
on a hit; on a miss load session and option, run Stage D + Stage E,
require an `index.html`, and upsert the result into the cache with
`expires_at = now + 30` minutes and a fresh metadata bag (which carries
no `fix_attempts` key, so the effective fix-attempt counter is zero). -/
def preview_option (now : Int) (w : World) (session_id : Nat)
    (option_id : String) (replyD replyE : Reply) :
    Except String (World × String) := do
  let cache_key := previewKey session_id option_id
  match get_cached_preview now w cache_key with
  | some cached => pure (w, cached)
  | none => do
    match w.sessions.find? (fun s => s.id == session_id) with
    | none => Except.error "Session not found"
    | some _session => do
      match w.options.find? (fun o =>
          o.session_id == session_id && o.option_id == option_id) with
      | none => Except.error "Option not found"
      | some _option_row => do
        let feel_spec ← generate_feel_spec replyD
        let _ := feel_spec
        let generated ← generate_game replyE
        let html ← htmlField generated
        if html = "" then
          Except.error "Game generation failed — no index.html produced"
        else do
          let expires := now + 30
          let meta : Json :=
            .obj [("session_id", .num session_id),
                  ("option_id", .str option_id)]
          let kv' :=
            if w.kv.any (fun r => r.cache_key == cache_key) then
              w.kv.map (fun r =>
                if r.cache_key == cache_key then
                  { r with value_text := html, expires_at := some expires,
                           meta_json := some meta }
                else r)
            else
              w.kv ++ [{ cache_key := cache_key, value_text := html,
                         meta_json := some meta,
                         expires_at := some expires }]
          pure ({ w with kv := kv' }, html)

/-- The message list `[e.get("message", "") for e in errors[:5]]` of
`fix_preview` (already iterated when building the prompt, so a non-dict
error report raises before the reasoning service is consulted). -/
def pyMsgs : List Json → Except String (List Json)
  | [] => .ok []
  | e :: rest =>
    match e with
    | .obj kvs =>
      (pyMsgs rest).map
        (fun ms => ((Json.jlookup kvs "message").getD (.str "")) :: ms)
    | _ => .error "AttributeError"

/-- The effective fix-attempt counter of a cache row:
`(row.meta_json or {}).get("fix_attempts", 0)`. -/
def fixAttemptsOf (meta_json : Option Json) : ℚ :=
  match (jsonOrEmptyObj meta_json).getKey? "fix_attempts" with
  | some v => (v.asNum).getD 0
  | none => 0

/-- Source `fix_preview` (lines 1668–1730): load the cached preview
(`ValueError` if absent), read the fix-attempt counter from the metadata
bag, reject outright once it has reached 2 — before the reasoning
service is consulted — otherwise feed the first five reported errors to
the service, require a fixed `index.html`, and update the row in place:
new content, fresh 30-minute expiry, `fix_attempts` incremented by one
and `last_errors` set to the first five error messages.  Client error
reports are dicts; `e.get` on a non-dict raises. -/
def fix_preview (now : Int) (w : World) (session_id : Nat)
    (option_id : String) (errors : List Json) (reply : Reply) :
    Except String (World × String) := do
  let cache_key := previewKey session_id option_id
  match w.kv.find? (fun r => r.cache_key == cache_key) with
  | none => Except.error "No cached preview to fix"
  | some row => do
    let meta := jsonOrEmptyObj row.meta_json
    let metaKvs ← match meta with
      | .obj kvs => pure kvs
      | _ => Except.error "AttributeError"
    let attempts : ℚ ←
      match Json.jlookup metaKvs "fix_attempts" with
      | none => pure 0
      | some v =>
        match v.asNum with
        | some q => pure q
        | none => Except.error "TypeError"
    if attempts ≥ 2 then
      Except.error "Max fix attempts reached"
    else do
      let msgs ← pyMsgs (errors.take 5)
      let fixed ← call_openai_json reply
      let fixedKvs ← match fixed with
        | .obj kvs => pure kvs
        | _ => Except.error "AttributeError"
      let html ← htmlField (.obj fixedKvs)
      if html = "" then
        Except.error "AI did not return fixed code"
      else do
        let meta' : Json :=
          .obj (Json.setKey
            (Json.setKey metaKvs "fix_attempts" (.num (attempts + 1)))
            "last_errors" (.arr msgs))
        let kv' :=
          w.kv.map (fun r =>
            if r.cache_key == cache_key then
              { r with value_text := html, expires_at := some (now + 30),
                       meta_json := some meta' }
            else r)
        pure ({ w with kv := kv' }, html)

/-! Concrete instances used by scenario conjuncts, counterexamples and
witnesses. -/

/-- A warning checker producing no warnings. -/
def noWarn : String → String → List String := fun _ _ => []

/-- Spec scenario: a root document missing its head section. -/
def c3_files : List BFile :=
  [{ file_path := "index.html", content := "<body>no head</body>",
     file_type := "text/html" }]

/-- Spec scenario: a root document referencing a script that is not in
the file map. -/
def c7_files : List BFile :=
  [{ file_path := "index.html",
     content := "<html><head></head><body><script src=\"missing.js\"></script></body></html>",
     file_type := "text/html" }]

/-- A root document whose only local-looking reference is a `mailto:`
link to an address absent from the file map. -/
def c7_mailto_files : List BFile :=
  [{ file_path := "index.html",
     content := "<html><head></head><body><a href=\"mailto:x@y.z\">m</a></body></html>",
     file_type := "text/html" }]

/-- A memory note whose feel spec carries the given movement model. -/
def feelNote (accel drag : ℚ) : Json :=
  .obj [("feel_spec", .obj [("movement_model",
    .obj [("accel", .num accel), ("drag", .num drag)])])]

/-- Spec scenario: notes with drag/accel ratios 0.9 and 0.95. -/
def c8_notes : List Json := [feelNote 100 90, feelNote 100 95]

/-- A fix stage that returns the files unchanged and never raises. -/
def c2_fix : Nat → List String → List BFile → List BFile × Bool :=
  fun _ _ fs => (fs, false)

/-- A reply sequence that requests a tool call on every round. -/
def c9_resp : Nat → ToolMsg :=
  fun _ => { tool_calls := ["search_memory"], content := some (.obj []) }

/-- Same as `c9_resp` up to the fourth reply, different afterwards. -/
def c9_resp2 : Nat → ToolMsg :=
  fun i =>
    if i ≤ 3 then { tool_calls := ["search_memory"], content := some (.obj []) }
    else { tool_calls := [], content := none }

/-- State of the session with the given id, as stored in the world. -/
def stateOf (w : World) (sid : Nat) : Option String :=
  (w.sessions.find? (fun s => s.id == sid)).map (·.state)

/-- The world an operation committed, when it succeeded. -/
def resultWorld {α : Type} : Except String (World × α) → Option World
  | .ok p => some p.1
  | .error _ => none

/-- A parsed reply that is an empty JSON object. -/
def rObjEmpty : Reply := some (.obj [])

/-- A parsed reply carrying a generated artifact. -/
def rGame : Reply := some (.obj [("index.html", .str "<html>ok</html>")])

/-- A session that has already been frozen by `finish_exploration`. -/
def stable_session : SessionRow :=
  { id := 1, project_id := 1, user_input := "make a game",
    ambiguity_json := none, state := "stable",
    selected_option_id := some "opt_1",
    hypothesis_ledger := some (.obj [("validated", .arr []),
      ("rejected", .arr []), ("open_questions", .arr [])]),
    iteration_count := 2 }

/-- A world whose only session is stable and whose project has a current
version with one file. -/
def Wstable : World :=
  { sessions := [stable_session], options := [],
    projects := [{ id := 1, current_version_id := some 10,
                   status := "running" }],
    versions := [{ id := 10, project_id := 1, build_status := "success" }],
    files := [{ version_id := 10, file_path := "index.html",
                content := "<html>v10</html>", file_type := "text/html" }],
    notes := [], prefs := [], kv := [], next_version_id := 11 }

/-- Outcome of `select_option` on the stable session of `Wstable`. -/
def c1_sel : Except String (World × SelectResult) :=
  select_option Wstable 1 1 "opt_1" rObjEmpty rGame

/-- The world committed by `c1_sel`. -/
def c1_selWorld : World :=
  match c1_sel with
  | .ok p => p.1
  | .error _ => Wstable

/-- The result returned by `c1_sel`. -/
def c1_selRes : SelectResult :=
  match c1_sel with
  | .ok p => p.2
  | .error _ =>
    { session_id := 0, option_id := "", version_id := 0, state := "" }

/-- Outcome of `iterate` on the stable session of `Wstable`. -/
def c1_it : Except String (World × IterateResult) :=
  iterate Wstable 1 1 "make it faster" rObjEmpty

/-- The world committed by `c1_it`. -/
def c1_itWorld : World :=
  match c1_it with
  | .ok p => p.1
  | .error _ => Wstable

/-- The result returned by `c1_it`. -/
def c1_itRes : IterateResult :=
  match c1_it with
  | .ok p => p.2
  | .error _ =>
    { session_id := 0, version_id := 0, iteration_count := 0, state := "" }

/-- Outcome of `finish_exploration` on the stable session of `Wstable`. -/
def c1_fin : Except String (World × FinishResult) :=
  finish_exploration Wstable 1 1 rObjEmpty

/-- The world committed by `c1_fin`. -/
def c1_finWorld : World :=
  match c1_fin with
  | .ok p => p.1
  | .error _ => Wstable

/-- The result returned by `c1_fin`. -/
def c1_finRes : FinishResult :=
  match c1_fin with
  | .ok p => p.2
  | .error _ => { session_id := 0, state := "" }

/-- The file the iteration of `c1_it` carries over into the new
version. -/
def c1_itFile : FileRow :=
  { version_id := 11, file_path := "index.html",
    content := "<html>v10</html>", file_type := "text/html" }

/-- A cache row whose fix-attempt counter has reached the ceiling. -/
def kv_meta2 : KVRow :=
  { cache_key := previewKey 1 "opt_1", value_text := "<html>x</html>",
    meta_json := some (.obj [("session_id", .num 1),
      ("option_id", .str "opt_1"), ("fix_attempts", .num 2)]),
    expires_at := some 100 }

/-- A world holding only the exhausted cache row. -/
def Wkv2 : World :=
  { sessions := [], options := [], projects := [], versions := [],
    files := [], notes := [], prefs := [], kv := [kv_meta2],
    next_version_id := 1 }

/-- A freshly generated cache row (no `fix_attempts` key yet). -/
def kv_meta0 : KVRow :=
  { cache_key := previewKey 1 "opt_1", value_text := "<html>x</html>",
    meta_json := some (.obj [("session_id", .num 1),
      ("option_id", .str "opt_1")]),
    expires_at := some 100 }

/-- A world holding only the fresh cache row. -/
def Wkv0 : World :=
  { sessions := [], options := [], projects := [], versions := [],
    files := [], notes := [], prefs := [], kv := [kv_meta0],
    next_version_id := 1 }

/-- A client error report. -/
def c4_errors : List Json := [.obj [("message", .str "boom")]]

/-- A parsed fix reply carrying a corrected artifact. -/
def rFixed : Reply := some (.obj [("index.html", .str "<html>fixed</html>")])

/-- The concrete runtime fix of `Wkv0`. -/
def c4_run : Except String (World × String) :=
  fix_preview 50 Wkv0 1 "opt_1" c4_errors rFixed

/-- The world committed by `c4_run`. -/
def c4World : World :=
  match c4_run with
  | .ok p => p.1
  | .error _ => Wkv0

/-- The content returned by `c4_run`. -/
def c4Html : String :=
  match c4_run with
  | .ok p => p.2
  | .error _ => ""

/-- An exploration option row usable for previews. -/
def opt1 : OptionRow :=
  { session_id := 1, option_id := "opt_1", title := "Speed",
    core_loop := "run", controls := "tap", mechanics := .arr [],
    template_id := "runner", complexity := "medium", mobile_fit := "good",
    assumptions_to_validate := none, is_recommended := true }

/-- A cache row whose expiry lies in the past of `now = 50`. -/
def kv_expired : KVRow :=
  { cache_key := previewKey 1 "opt_1", value_text := "<html>old</html>",
    meta_json := none, expires_at := some 10 }

/-- A world with an expired preview entry, plus the session and option
needed to regenerate it. -/
def Wexp : World :=
  { sessions := [stable_session], options := [opt1], projects := [],
    versions := [], files := [], notes := [], prefs := [],
    kv := [kv_expired], next_version_id := 1 }

/-- The concrete regeneration run on `Wexp`. -/
def c5_run : Except String (World × String) :=
  preview_option 50 Wexp 1 "opt_1" rObjEmpty rGame

/-- The world committed by `c5_run`. -/
def c5World : World :=
  match c5_run with
  | .ok p => p.1
  | .error _ => Wexp

/-- The content returned by `c5_run`. -/
def c5Html : String :=
  match c5_run with
  | .ok p => p.2
  | .error _ => ""

/-! Association-list and dictionary lemmas used by several proofs. -/

theorem alookup_dictUpsert {α : Type} (m : List (String × α)) (k k' : String)
    (v : α) :
    alookup (dictUpsert m k v) k' = if k' = k then some v else alookup m k' := by
  induction m with
  | nil =>
    by_cases h : k' = k
    · simp [dictUpsert, alookup, h]
    · simp [dictUpsert, alookup, h, Ne.symm h]
  | cons kv rest ih =>
    obtain ⟨k₀, v₀⟩ := kv
    by_cases h0 : k₀ = k
    · subst h0
      by_cases h : k' = k₀
      · simp [dictUpsert, alookup, h]
      · simp [dictUpsert, alookup, h, Ne.symm h]
    · by_cases h : k' = k₀
      · subst h
        simp [dictUpsert, alookup, h0, Ne.symm h0]
      · simp [dictUpsert, alookup, h0, h, Ne.symm h, ih]

theorem mem_keys_dictUpsert {α : Type} (m : List (String × α))
    (k p : String) (v : α) :
    p ∈ (dictUpsert m k v).map Prod.fst ↔ p = k ∨ p ∈ m.map Prod.fst := by
  induction m with
  | nil => simp [dictUpsert]
  | cons kv rest ih =>
    obtain ⟨k₀, v₀⟩ := kv
    by_cases h0 : k₀ = k
    · subst h0
      have hred : dictUpsert ((k₀, v₀) :: rest) k₀ v = (k₀, v) :: rest := by
        simp [dictUpsert]
      rw [hred]
      simp only [List.map_cons, List.mem_cons]
      tauto
    · simp only [dictUpsert, if_neg h0, List.map_cons, List.mem_cons, ih]
      tauto

theorem nodup_keys_dictUpsert {α : Type} (m : List (String × α))
    (k : String) (v : α) (h : (m.map Prod.fst).Nodup) :
    ((dictUpsert m k v).map Prod.fst).Nodup := by
  induction m with
  | nil => simp [dictUpsert]
  | cons kv rest ih =>
    obtain ⟨k₀, v₀⟩ := kv
    rw [List.map_cons, List.nodup_cons] at h
    by_cases h0 : k₀ = k
    · subst h0
      have hred : dictUpsert ((k₀, v₀) :: rest) k₀ v = (k₀, v) :: rest := by
        simp [dictUpsert]
      rw [hred, List.map_cons, List.nodup_cons]
      exact h
    · simp only [dictUpsert, if_neg h0, List.map_cons, List.nodup_cons]
      refine ⟨fun hk0 => ?_, ih h.2⟩
      rcases (mem_keys_dictUpsert rest k k₀ v).1 hk0 with rfl | hmem
      · exact h0 rfl
      · exact h.1 hmem

theorem alookup_pyDictFold {α : Type} (pairs : List (String × α))
    (m : List (String × α)) (k : String) :
    alookup (pairs.foldl (fun m kv => dictUpsert m kv.1 kv.2) m) k =
      ((pairs.reverse.find? (fun kv => kv.1 == k)).map Prod.snd).or
        (alookup m k) := by
  induction pairs generalizing m with
  | nil => simp
  | cons kv rest ih =>
    obtain ⟨k₀, v₀⟩ := kv
    simp only [List.foldl_cons, List.reverse_cons]
    rw [ih, List.find?_append]
    cases hr : rest.reverse.find? (fun kv => kv.1 == k) with
    | some kv' => simp [Option.or]
    | none =>
      by_cases hk : k₀ = k
      · subst hk
        simp [List.find?, Option.or, alookup_dictUpsert]
      · have hbeq : (k₀ == k) = false := beq_eq_false_iff_ne.mpr hk
        simp [List.find?, Option.or, alookup_dictUpsert, hbeq, Ne.symm hk]

theorem alookup_pyDictOf {α : Type} (pairs : List (String × α)) (k : String) :
    alookup (pyDictOf pairs) k =
      (pairs.reverse.find? (fun kv => kv.1 == k)).map Prod.snd := by
  rw [pyDictOf, alookup_pyDictFold]
  simp [alookup]

theorem mem_keys_pyDictFold {α : Type} (pairs : List (String × α))
    (m : List (String × α)) (p : String) :
    p ∈ ((pairs.foldl (fun m kv => dictUpsert m kv.1 kv.2) m).map Prod.fst) ↔
      p ∈ m.map Prod.fst ∨ p ∈ pairs.map Prod.fst := by
  induction pairs generalizing m with
  | nil => simp
  | cons kv rest ih =>
    obtain ⟨k₀, v₀⟩ := kv
    simp only [List.foldl_cons]
    rw [ih, mem_keys_dictUpsert]
    simp only [List.map_cons, List.mem_cons]
    tauto

theorem mem_keys_pyDictOf {α : Type} (pairs : List (String × α)) (p : String) :
    p ∈ (pyDictOf pairs).map Prod.fst ↔ p ∈ pairs.map Prod.fst := by
  rw [pyDictOf, mem_keys_pyDictFold]
  simp

theorem nodup_keys_pyDictFold {α : Type} (pairs : List (String × α))
    (m : List (String × α)) (h : (m.map Prod.fst).Nodup) :
    (((pairs.foldl (fun m kv => dictUpsert m kv.1 kv.2) m)).map Prod.fst).Nodup := by
  induction pairs generalizing m with
  | nil => simpa
  | cons kv rest ih =>
    simp only [List.foldl_cons]
    exact ih _ (nodup_keys_dictUpsert _ _ _ h)

theorem nodup_keys_pyDictOf {α : Type} (pairs : List (String × α)) :
    ((pyDictOf pairs).map Prod.fst).Nodup :=
  nodup_keys_pyDictFold pairs [] (by simp)

theorem alookup_eq_some_of_mem {α : Type} (m : List (String × α))
    (kv : String × α) (hnd : (m.map Prod.fst).Nodup) (hm : kv ∈ m) :
    alookup m kv.1 = some kv.2 := by
  induction m with
  | nil => simp at hm
  | cons kv₀ rest ih =>
    rw [List.map_cons, List.nodup_cons] at hnd
    rcases List.mem_cons.1 hm with heq | hmem
    · subst heq
      obtain ⟨k₀, v₀⟩ := kv
      simp [alookup]
    · obtain ⟨k₀, v₀⟩ := kv₀
      have hne : ¬k₀ = kv.1 := by
        intro h
        exact hnd.1 (by rw [h]; exact List.mem_map.2 ⟨kv, hmem, rfl⟩)
      simp only [alookup]
      rw [if_neg hne]
      exact ih hnd.2 hmem

/-- Left cancellation for string append. -/
theorem string_append_left_cancel {p a b : String} (h : p ++ a = p ++ b) :
    a = b := by
  have hd := congrArg String.data h
  rw [String.data_append, String.data_append] at hd
  have : a.data = b.data := List.append_cancel_left hd
  cases a
  cases b
  exact congrArg String.mk this

/-- C3: `validate_build` succeeds exactly when no error is produced;
every error stems from a missing `index.html`, a missing structural
section of `index.html`, or an unresolved local reference; the warning
checker (banned offline-breaking patterns) never influences the errors or
the success flag; and on `c3_files` it fails citing the missing head
section. -/
theorem claim_C3 (checker checker' : String → String → List String)
    (files : List BFile) :
    ((validate_build checker files).success = true ↔
      (validate_build checker files).errors = [])
    ∧ (∀ e ∈ (validate_build checker files).errors,
        e = "Missing index.html" ∨
        ∃ f ∈ files, f.file_path = "index.html" ∧
          (e ∈ validate_html f.content ∨
           e ∈ check_file_references f.content (files.map (·.file_path))))
    ∧ (validate_build checker files).errors =
        (validate_build checker' files).errors
    ∧ (validate_build checker files).success =
        (validate_build checker' files).success
    ∧ ((validate_build noWarn c3_files).success = false ∧
       "Missing <head> section" ∈ (validate_build noWarn c3_files).errors) := by
  refine ⟨?_, ?_, rfl, rfl, ?_, ?_⟩
  · simp [validate_build, List.isEmpty_iff]
  · intro e he
    simp only [validate_build] at he
    rcases List.mem_append.1 he with h | h
    · obtain ⟨f, hf, hef⟩ := List.mem_flatMap.1 h
      by_cases hp : f.file_path = "index.html"
      · rw [if_pos hp] at hef
        rcases List.mem_append.1 hef with h1 | h1
        · exact Or.inr ⟨f, hf, hp, Or.inl h1⟩
        · exact Or.inr ⟨f, hf, hp, Or.inr h1⟩
      · rw [if_neg hp] at hef
        simp at hef
    · by_cases ha : files.any (fun f => f.file_path = "index.html")
      · rw [if_pos ha] at h
        simp at h
      · rw [if_neg ha] at h
        simp at h
        exact Or.inl h
  · decide
  · decide

/-- C7 counterexample: `mailto:` references are also exempt in the code,
contrary to the claim's exhaustive list of exemptions: the reference
`mailto:x@y.z` is scanned, does not start with `http://`, `https://`,
`data:` or `#`, is non-empty after stripping and absent from the file
map, and yet the validator reports no error and succeeds. -/
theorem claim_C7_counterexample :
    findRefs "<html><head></head><body><a href=\"mailto:x@y.z\">m</a></body></html>"
      = ["mailto:x@y.z"]
    ∧ pyStartsWith "mailto:x@y.z" "http://" = false
    ∧ pyStartsWith "mailto:x@y.z" "https://" = false
    ∧ pyStartsWith "mailto:x@y.z" "data:" = false
    ∧ pyStartsWith "mailto:x@y.z" "#" = false
    ∧ lstripDotSlash "mailto:x@y.z" = "mailto:x@y.z"
    ∧ ("mailto:x@y.z" ∈ c7_mailto_files.map (·.file_path)) = False
    ∧ (validate_build noWarn c7_mailto_files).errors = []
    ∧ (validate_build noWarn c7_mailto_files).success = true := by
  refine ⟨?_, ?_, ?_, ?_, ?_, ?_, ?_, ?_, ?_⟩ <;> decide

/-- C7 (amended): the exempt prefixes are `http://`, `https://`,
`data:`, `#` and additionally `mailto:`; an exempt reference never
produces a missing-reference error, every error cites a scanned
non-exempt reference that is non-empty after stripping and absent from
the file map, every such reference produces its error, and the
`missing.js` scenario fails citing `missing.js`. -/
theorem claim_C7_amended (html : String) (available : List String) :
    (∀ m ∈ check_file_references html available,
       ∃ ref ∈ findRefs html, isExemptRef ref = false ∧
         lstripDotSlash ref ≠ "" ∧ lstripDotSlash ref ∉ available ∧
         m = "Referenced file not found: " ++ ref)
    ∧ (∀ ref ∈ findRefs html, isExemptRef ref = false →
         lstripDotSlash ref ≠ "" → lstripDotSlash ref ∉ available →
         ("Referenced file not found: " ++ ref) ∈
           check_file_references html available)
    ∧ (∀ ref, isExemptRef ref = true →
         ("Referenced file not found: " ++ ref) ∉
           check_file_references html available)
    ∧ ((validate_build noWarn c7_files).success = false ∧
       "Referenced file not found: missing.js" ∈
         (validate_build noWarn c7_files).errors) := by
  have main : ∀ m ∈ check_file_references html available,
      ∃ ref ∈ findRefs html, isExemptRef ref = false ∧
        lstripDotSlash ref ≠ "" ∧ lstripDotSlash ref ∉ available ∧
        m = "Referenced file not found: " ++ ref := by
    intro m hm
    obtain ⟨ref, href, hf⟩ := List.mem_filterMap.1 hm
    by_cases he : isExemptRef ref = true
    · rw [if_pos he] at hf
      simp at hf
    · rw [if_neg he] at hf
      by_cases hc : lstripDotSlash ref ≠ "" ∧ lstripDotSlash ref ∉ available
      · rw [if_pos hc] at hf
        exact ⟨ref, href, Bool.not_eq_true _ ▸ Bool.of_not_eq_true he, hc.1,
          hc.2, (Option.some.inj hf).symm⟩
      · rw [if_neg hc] at hf
        simp at hf
  refine ⟨main, ?_, ?_, ?_, ?_⟩
  · intro ref href he h1 h2
    refine List.mem_filterMap.2 ⟨ref, href, ?_⟩
    have hg : ¬(isExemptRef ref = true) := by
      rw [he]
      exact Bool.false_ne_true
    rw [if_neg hg, if_pos ⟨h1, h2⟩]
  · intro ref hex hmem
    obtain ⟨ref', _, hex', _, _, heq⟩ := main _ hmem
    have : ref = ref' := string_append_left_cancel heq
    rw [this, hex'] at hex
    exact Bool.false_ne_true hex
  · decide
  · decide

/-- C8: `aggregate_user_feel_profile` derives `style_tendency` from the
average drag/accel ratio over the scanned notes whenever ratios were
collected — `tight` at average ≥ 0.85, `floaty` at ≤ 0.5, `arcade`
otherwise — and on notes with ratios 0.9 and 0.95 it infers `tight`. -/
theorem claim_C8 (notes : List Json) :
    (dragRatios notes ≠ [] →
      ((dragRatios notes).sum / ((dragRatios notes).length : ℚ) ≥ 85 / 100 →
        aggregate_user_feel_profile_style notes = some "tight")
      ∧ ((dragRatios notes).sum / ((dragRatios notes).length : ℚ) ≤ 1 / 2 →
        aggregate_user_feel_profile_style notes = some "floaty")
      ∧ (1 / 2 < (dragRatios notes).sum / ((dragRatios notes).length : ℚ) →
        (dragRatios notes).sum / ((dragRatios notes).length : ℚ) < 85 / 100 →
        aggregate_user_feel_profile_style notes = some "arcade"))
    ∧ (dragRatios c8_notes = [9 / 10, 19 / 20]
       ∧ aggregate_user_feel_profile_style c8_notes = some "tight") := by
  constructor
  · intro hne
    have hie : (dragRatios notes).isEmpty = false := by
      cases hdr : dragRatios notes with
      | nil => exact absurd hdr hne
      | cons a l => simp
    refine ⟨?_, ?_, ?_⟩
    · intro h
      rw [aggregate_user_feel_profile_style, hie]
      simp only [Bool.false_eq_true, if_false]
      rw [if_pos h]
    · intro h
      rw [aggregate_user_feel_profile_style, hie]
      simp only [Bool.false_eq_true, if_false]
      rw [if_neg (by
        intro hge
        have : (85 : ℚ) / 100 ≤ 1 / 2 := le_trans hge h
        norm_num at this), if_pos h]
    · intro h1 h2
      rw [aggregate_user_feel_profile_style, hie]
      simp only [Bool.false_eq_true, if_false]
      rw [if_neg (by exact fun hge => absurd h2 (not_lt.2 hge)),
        if_neg (by exact fun hle => absurd h1 (not_lt.2 hle))]
  · have hdr0 : dragRatios c8_notes = [(90 : ℚ) / 100, 95 / 100] := rfl
    have hdr : dragRatios c8_notes = [9 / 10, 19 / 20] := by
      rw [hdr0]
      norm_num
    refine ⟨hdr, ?_⟩
    rw [aggregate_user_feel_profile_style, hdr]
    norm_num

/-- Witness for C3 at the head-missing scenario file set. -/
theorem claim_C3_witness :
    ("Missing <head> section" = "Missing index.html" ∨
      ∃ f ∈ c3_files, f.file_path = "index.html" ∧
        ("Missing <head> section" ∈ validate_html f.content ∨
         "Missing <head> section" ∈
           check_file_references f.content (c3_files.map (·.file_path))))
    ∧ ((validate_build noWarn c3_files).success = false ∧
       "Missing <head> section" ∈ (validate_build noWarn c3_files).errors) := by
  refine ⟨(claim_C3 noWarn noWarn c3_files).2.1 "Missing <head> section" ?_,
    (claim_C3 noWarn noWarn c3_files).2.2.2.2⟩
  decide

/-- Witness for the amended C7 at the `missing.js` scenario and a
`mailto:` reference. -/
theorem claim_C7_witness :
    ("Referenced file not found: missing.js" ∈
      check_file_references
        "<html><head></head><body><script src=\"missing.js\"></script></body></html>"
        ["index.html"])
    ∧ ("Referenced file not found: mailto:x@y.z" ∉
      check_file_references
        "<html><head></head><body><a href=\"mailto:x@y.z\">m</a></body></html>"
        ["index.html"]) := by
  constructor
  · exact (claim_C7_amended
      "<html><head></head><body><script src=\"missing.js\"></script></body></html>"
      ["index.html"]).2.1 "missing.js" (by decide) (by decide) (by decide)
      (by decide)
  · exact (claim_C7_amended
      "<html><head></head><body><a href=\"mailto:x@y.z\">m</a></body></html>"
      ["index.html"]).2.2.1 "mailto:x@y.z" (by decide)

/-- Witness for C8 at the scenario notes. -/
theorem claim_C8_witness :
    dragRatios c8_notes ≠ [] ∧
    aggregate_user_feel_profile_style c8_notes = some "tight" := by
  have h := claim_C8 c8_notes
  have hne : dragRatios c8_notes ≠ [] := by
    rw [h.2.1]
    simp
  refine ⟨hne, (h.1 hne).1 ?_⟩
  rw [h.2.1]
  norm_num

/-! Lemmas about the chat build-fix loop. -/

theorem fixLoopGo_calls_le (checker : String → String → List String)
    (fix : Nat → List String → List BFile → List BFile × Bool) :
    ∀ (rem attempt : Nat) (files : List BFile) (calls : Nat),
      (fixLoopGo checker fix rem attempt files calls).fixCalls ≤
        calls + (MAX_FIX_RETRIES - attempt) := by
  intro rem
  induction rem with
  | zero =>
    intro attempt files calls
    simp [fixLoopGo]
  | succ rem ih =>
    intro attempt files calls
    rw [fixLoopGo]
    by_cases hbr : (validate_build checker files).success
    · simp [hbr]
    · rcases hfx : fix attempt (validate_build checker files).errors files with
        ⟨files', raised⟩
      by_cases hat : attempt < MAX_FIX_RETRIES
      · simp only [hbr, Bool.false_eq_true, if_false, hat, if_true, hfx]
        cases raised
        · simp only [Bool.false_eq_true, if_false]
          have := ih (attempt + 1) files' (calls + 1)
          omega
        · simp only [if_true]
          omega
      · simp [hbr, hat]

theorem fixLoopGo_result_eq (checker : String → String → List String)
    (fix : Nat → List String → List BFile → List BFile × Bool) :
    ∀ (rem attempt : Nat) (files : List BFile) (calls : Nat),
      (fixLoopGo checker fix rem attempt files calls).result =
        validate_build checker
          (fixLoopGo checker fix rem attempt files calls).lastValidated := by
  intro rem
  induction rem with
  | zero =>
    intro attempt files calls
    simp [fixLoopGo]
  | succ rem ih =>
    intro attempt files calls
    rw [fixLoopGo]
    by_cases hbr : (validate_build checker files).success
    · simp [hbr]
    · rcases hfx : fix attempt (validate_build checker files).errors files with
        ⟨files', raised⟩
      by_cases hat : attempt < MAX_FIX_RETRIES
      · simp only [hbr, Bool.false_eq_true, if_false, hat, if_true, hfx]
        cases raised
        · simp only [Bool.false_eq_true, if_false]
          exact ih (attempt + 1) files' (calls + 1)
        · simp only [if_true]
      · simp [hbr, hat]

theorem fixLoopGo_lastValidated_eq (checker : String → String → List String)
    (fix : Nat → List String → List BFile → List BFile × Bool)
    (hfx : ∀ a e fs, (fix a e fs).2 = false) :
    ∀ (rem attempt : Nat) (files : List BFile) (calls : Nat),
      (fixLoopGo checker fix rem attempt files calls).lastValidated =
        (fixLoopGo checker fix rem attempt files calls).files := by
  intro rem
  induction rem with
  | zero =>
    intro attempt files calls
    simp [fixLoopGo]
  | succ rem ih =>
    intro attempt files calls
    rw [fixLoopGo]
    by_cases hbr : (validate_build checker files).success
    · simp [hbr]
    · rcases hfx2 : fix attempt (validate_build checker files).errors files with
        ⟨files', raised⟩
      by_cases hat : attempt < MAX_FIX_RETRIES
      · simp only [hbr, Bool.false_eq_true, if_false, hat, if_true, hfx2]
        have hz : raised = false := by
          have := hfx attempt (validate_build checker files).errors files
          rw [hfx2] at this
          exact this
        subst hz
        simp only [Bool.false_eq_true, if_false]
        exact ih (attempt + 1) files' (calls + 1)
      · simp [hbr, hat]

/-- C2: the fix stage runs at most `MAX_FIX_RETRIES = 3` times; the
`BuildResult` handed to the version save is the outcome of the last
validation performed; when the fix stage never raises, that validation
is of the final file set; and an exhausted (still failing) run persists
the last failing file set as a version with `build_status = "failed"`
and the error list recorded in the build log — it is not discarded. -/
theorem claim_C2 (checker : String → String → List String)
    (fix : Nat → List String → List BFile → List BFile × Bool)
    (files : List BFile) :
    (run_pipeline_fix_loop checker fix files).fixCalls ≤ MAX_FIX_RETRIES
    ∧ (run_pipeline_fix_loop checker fix files).result =
        validate_build checker
          (run_pipeline_fix_loop checker fix files).lastValidated
    ∧ ((∀ a e fs, (fix a e fs).2 = false) →
        (run_pipeline_fix_loop checker fix files).result =
          validate_build checker (run_pipeline_fix_loop checker fix files).files)
    ∧ ((run_pipeline_fix_loop checker fix files).result.success = false →
        persist_pipeline_version (run_pipeline_fix_loop checker fix files) =
          { files := (run_pipeline_fix_loop checker fix files).files,
            build_status := "failed",
            build_log := some (String.intercalate "\n"
              (run_pipeline_fix_loop checker fix files).result.errors) }) := by
  refine ⟨?_, ?_, ?_, ?_⟩
  · have := fixLoopGo_calls_le checker fix (MAX_FIX_RETRIES + 1) 0 files 0
    simpa [run_pipeline_fix_loop] using this
  · exact fixLoopGo_result_eq checker fix (MAX_FIX_RETRIES + 1) 0 files 0
  · intro hfx
    have h1 := fixLoopGo_result_eq checker fix (MAX_FIX_RETRIES + 1) 0 files 0
    have h2 := fixLoopGo_lastValidated_eq checker fix hfx
      (MAX_FIX_RETRIES + 1) 0 files 0
    rw [run_pipeline_fix_loop, h1, h2]
  · intro hsucc
    have h1 := fixLoopGo_result_eq checker fix (MAX_FIX_RETRIES + 1) 0 files 0
    have hie : (run_pipeline_fix_loop checker fix files).result.errors.isEmpty
        = false := by
      have hs : (run_pipeline_fix_loop checker fix files).result.success =
          (run_pipeline_fix_loop checker fix files).result.errors.isEmpty := by
        rw [run_pipeline_fix_loop, h1]
        rfl
      rw [← hs]
      exact hsucc
    simp [persist_pipeline_version, hsucc, hie]

/-- Witness for C2: an always-failing artifact with a fix stage that
changes nothing exhausts the retries. -/
theorem claim_C2_witness :
    (run_pipeline_fix_loop noWarn c2_fix c3_files).fixCalls ≤ MAX_FIX_RETRIES
    ∧ (run_pipeline_fix_loop noWarn c2_fix c3_files).result =
        validate_build noWarn (run_pipeline_fix_loop noWarn c2_fix c3_files).files
    ∧ persist_pipeline_version (run_pipeline_fix_loop noWarn c2_fix c3_files) =
        { files := (run_pipeline_fix_loop noWarn c2_fix c3_files).files,
          build_status := "failed",
          build_log := some (String.intercalate "\n"
            (run_pipeline_fix_loop noWarn c2_fix c3_files).result.errors) } := by
  have h := claim_C2 noWarn c2_fix c3_files
  exact ⟨h.1, h.2.2.1 (fun _ _ _ => rfl), h.2.2.2 (by decide)⟩

/-! Lemmas about the memory tool-call loop. -/

theorem toolLoopGo_fst_le (responses : Nat → ToolMsg) :
    ∀ (fuel rounds : Nat) (msg : ToolMsg),
      (toolLoopGo responses fuel rounds msg).1 ≤ rounds + fuel := by
  intro fuel
  induction fuel with
  | zero =>
    intro rounds msg
    simp [toolLoopGo]
  | succ fuel ih =>
    intro rounds msg
    rw [toolLoopGo]
    by_cases hm : msg.tool_calls.isEmpty
    · simp [hm]
    · simp only [hm, Bool.false_eq_true, if_false]
      have := ih (rounds + 1) (responses (rounds + 1))
      omega

theorem toolLoopGo_congr (responses responses' : Nat → ToolMsg)
    (hagree : ∀ i, i ≤ 3 → responses i = responses' i) :
    ∀ (fuel rounds : Nat) (msg : ToolMsg), rounds + fuel = 3 →
      toolLoopGo responses fuel rounds msg =
        toolLoopGo responses' fuel rounds msg := by
  intro fuel
  induction fuel with
  | zero =>
    intro rounds msg _
    simp [toolLoopGo]
  | succ fuel ih =>
    intro rounds msg hsum
    rw [toolLoopGo, toolLoopGo]
    by_cases hm : msg.tool_calls.isEmpty
    · simp [hm]
    · simp only [hm, Bool.false_eq_true, if_false]
      rw [hagree (rounds + 1) (by omega)]
      exact ih (rounds + 1) (responses' (rounds + 1)) (by omega)

/-- C9: the memory tool-call loop of `_call_openai_with_tools` executes
at most 3 tool request/response rounds, and the whole call never
consults a reply beyond the fourth (first call plus three rounds): two
reply sequences agreeing up to index 3 produce identical outcomes. -/
theorem claim_C9 (responses : Nat → ToolMsg) :
    (call_openai_with_tools responses).1 ≤ 3
    ∧ (∀ responses', (∀ i, i ≤ 3 → responses i = responses' i) →
        call_openai_with_tools responses = call_openai_with_tools responses') := by
  constructor
  · have := toolLoopGo_fst_le responses 3 0 (responses 0)
    simp only [call_openai_with_tools]
    rcases hl : toolLoopGo responses 3 0 (responses 0) with ⟨rounds, msg⟩
    rw [hl] at this
    simpa using this
  · intro responses' hagree
    simp only [call_openai_with_tools]
    rw [hagree 0 (by omega), toolLoopGo_congr responses responses' hagree 3 0
      (responses' 0) (by omega)]

/-- Witness for C9: a reply sequence requesting tools forever runs
exactly the 3 allowed rounds, and replies beyond index 3 are never
consulted. -/
theorem claim_C9_witness :
    (call_openai_with_tools c9_resp).1 ≤ 3
    ∧ call_openai_with_tools c9_resp = call_openai_with_tools c9_resp2 := by
  refine ⟨(claim_C9 c9_resp).1, (claim_C9 c9_resp).2 c9_resp2 ?_⟩
  intro i hi
  simp [c9_resp, c9_resp2, hi]

/-! Lemmas locating a session/row after a keyed in-place update. -/

theorem find?_update_eq {β κ : Type} [BEq κ] [LawfulBEq κ] (l : List β)
    (key : β → κ) (k : κ) (g : β → β) (hg : ∀ b, key (g b) = key b) :
    (l.map (fun b => if key b == k then g b else b)).find?
        (fun b => key b == k) =
      (l.find? (fun b => key b == k)).map g := by
  induction l with
  | nil => simp
  | cons b rest ih =>
    cases hb : key b == k with
    | true => simp [List.find?_cons, hb, hg]
    | false => simp [List.find?_cons, hb, ih]

theorem find?_update_ne {β κ : Type} [BEq κ] [LawfulBEq κ] (l : List β)
    (key : β → κ) (k k' : κ) (g : β → β) (hg : ∀ b, key (g b) = key b)
    (hne : k' ≠ k) :
    (l.map (fun b => if key b == k then g b else b)).find?
        (fun b => key b == k') =
      l.find? (fun b => key b == k') := by
  induction l with
  | nil => simp
  | cons b rest ih =>
    cases hb : key b == k with
    | true =>
      have h1 : (key (g b) == k') = false := by
        rw [hg]
        rw [beq_iff_eq] at hb
        rw [hb]
        exact beq_eq_false_iff_ne.2 (Ne.symm hne)
      have h2 : (key b == k') = false := by
        rw [beq_iff_eq] at hb
        rw [hb]
        exact beq_eq_false_iff_ne.2 (Ne.symm hne)
      simp [List.find?_cons, hb, h1, h2, ih]
    | false => simp [List.find?_cons, hb, ih]

/-! Success shapes of the exploration operations: what a successful
call commits.  These drive the state-machine and frame claims. -/

theorem select_option_ok_shape (w : World) (pid sid : Nat)
    (oid : String) (rD rE : Reply) (w' : World) (res : SelectResult)
    (h : select_option w pid sid oid rD rE = .ok (w', res)) :
    ∃ session fs,
      w.sessions.find? (fun s => s.id == sid) = some session ∧
      w'.sessions = w.sessions.map (fun s =>
        if s.id == sid then
          { s with selected_option_id := some oid, state := "committed",
                   hypothesis_ledger := some (Json.obj
                     [("validated", .arr []), ("rejected", .arr []),
                      ("open_questions", .arr []), ("feel_spec", fs)]) }
        else s) ∧
      res.state = "committed" ∧ res.session_id = session.id := by
  simp only [select_option] at h
  split at h
  · simp at h
  · rename_i session hs
    cases hD : generate_feel_spec rD with
    | error e =>
      rw [hD] at h
      simp only [bind, Except.bind] at h
      simp at h
    | ok fs =>
      rw [hD] at h
      simp only [bind, Except.bind] at h
      cases hE : generate_game rE with
      | error e =>
        rw [hE] at h
        simp only [bind, Except.bind] at h
        simp at h
      | ok gen =>
        rw [hE] at h
        simp only [bind, Except.bind] at h
        cases hH : htmlField gen with
        | error e =>
          rw [hH] at h
          simp only [bind, Except.bind] at h
          simp at h
        | ok html =>
          rw [hH] at h
          simp only [bind, Except.bind, pure, Except.pure] at h
          have h2 := Except.ok.inj h
          rw [Prod.mk.injEq] at h2
          obtain ⟨hw, hres⟩ := h2
          subst hw
          subst hres
          exact ⟨session, fs, hs, rfl, rfl, rfl⟩

theorem finish_exploration_ok_shape (w : World) (pid sid : Nat) (rF : Reply)
    (w' : World) (res : FinishResult)
    (h : finish_exploration w pid sid rF = .ok (w', res)) :
    ∃ session,
      w.sessions.find? (fun s => s.id == sid) = some session ∧
      w'.sessions = w.sessions.map (fun s =>
        if s.id == sid then { s with state := "stable" } else s) ∧
      res.state = "stable" ∧ res.session_id = session.id := by
  simp only [finish_exploration] at h
  split at h
  · simp at h
  · rename_i session hs
    cases rF with
    | none =>
      simp only [call_openai_json, bind, Except.bind] at h
      simp at h
    | some mc =>
      simp only [call_openai_json, bind, Except.bind] at h
      cases mc with
      | obj kvs =>
        simp only [bind, Except.bind, pure, Except.pure] at h
        have h2 := Except.ok.inj h
        rw [Prod.mk.injEq] at h2
        obtain ⟨hw, hres⟩ := h2
        subst hw
        subst hres
        exact ⟨session, hs, rfl, rfl, rfl⟩
      | null =>
        simp only [bind, Except.bind] at h
        simp at h
      | bool b =>
        simp only [bind, Except.bind] at h
        simp at h
      | num q =>
        simp only [bind, Except.bind] at h
        simp at h
      | str s =>
        simp only [bind, Except.bind] at h
        simp at h
      | arr xs =>
        simp only [bind, Except.bind] at h
        simp at h

theorem iterate_ok_shape (w : World) (pid sid : Nat) (input : String)
    (rI : Reply) (w' : World) (res : IterateResult)
    (h : iterate w pid sid input rI = .ok (w', res)) :
    ∃ session project cvid mods ledger2,
      w.sessions.find? (fun s => s.id == sid) = some session ∧
      w.projects.find? (fun p => p.id == pid) = some project ∧
      project.current_version_id = some cvid ∧
      rI = some (Json.obj mods) ∧
      w' = { w with
        sessions := w.sessions.map (fun s =>
          if s.id == sid then
            { s with iteration_count := s.iteration_count + 1,
                     state := "iterating",
                     hypothesis_ledger := some ledger2 } else s),
        projects := w.projects.map (fun p =>
          if p.id == pid then
            { p with current_version_id := some w.next_version_id } else p),
        versions := w.versions ++
          [{ id := w.next_version_id, project_id := pid,
             build_status := "success" }],
        files := w.files ++
          ((w.files.filter (fun f => f.version_id == cvid)).foldl
              (fun m f => dictUpsert m f.file_path f.content) []).map (fun fc =>
            { version_id := w.next_version_id, file_path := fc.1,
              content := match Json.jlookup mods fc.1 with
                         | some (.str s) => s
                         | _ => fc.2,
              file_type := if pyEndsWith fc.1 ".html" then "text/html"
                           else "application/javascript" }),
        next_version_id := w.next_version_id + 1 } ∧
      res = { session_id := session.id, version_id := w.next_version_id,
              iteration_count := session.iteration_count + 1,
              state := "iterating" } := by
  simp only [iterate] at h
  split at h
  · simp at h
  · rename_i session hs
    split at h
    · simp at h
    · rename_i project hp
      split at h
      · simp at h
      · rename_i cvid hcv
        cases rI with
        | none =>
          simp only [call_openai_json, bind, Except.bind] at h
          simp at h
        | some j =>
          simp only [call_openai_json, bind, Except.bind, pure,
            Except.pure] at h
          cases j with
          | null => simp at h
          | bool b => simp at h
          | num q => simp at h
          | str s => simp at h
          | arr xs => simp at h
          | obj mods =>
            cases hl : session.hypothesis_ledger with
            | none =>
              rw [hl] at h
              have hoq : Json.jlookup
                  [("validated", Json.arr []), ("rejected", Json.arr []),
                   ("open_questions", Json.arr [])] "open_questions" =
                  some (Json.arr []) := rfl
              simp only [hoq, bind, Except.bind, pure, Except.pure] at h
              have h2 := Except.ok.inj h
              rw [Prod.mk.injEq] at h2
              obtain ⟨hw, hres⟩ := h2
              subst hw
              subst hres
              exact ⟨session, project, cvid, mods, _, hs, hp, hcv, rfl, rfl, rfl⟩
            | some hlj =>
              rw [hl] at h
              simp only [bind, Except.bind, pure, Except.pure] at h
              cases hpt : hlj.pyTruthy with
              | false =>
                have hng : ¬(hlj.pyTruthy = true) := by
                  rw [hpt]
                  simp
                rw [if_neg hng] at h
                have hoq : Json.jlookup
                    [("validated", Json.arr []), ("rejected", Json.arr []),
                     ("open_questions", Json.arr [])] "open_questions" =
                    some (Json.arr []) := rfl
                simp only [hoq, bind, Except.bind, pure, Except.pure] at h
                have h2 := Except.ok.inj h
                rw [Prod.mk.injEq] at h2
                obtain ⟨hw, hres⟩ := h2
                subst hw
                subst hres
                exact ⟨session, project, cvid, mods, _, hs, hp, hcv, rfl, rfl,
                  rfl⟩
              | true =>
                rw [if_pos hpt] at h
                cases hlj with
                | obj kvs2 =>
                  simp only [bind, Except.bind, pure, Except.pure] at h
                  cases hoq : Json.jlookup kvs2 "open_questions" with
                  | none =>
                    rw [hoq] at h
                    simp at h
                  | some v =>
                    rw [hoq] at h
                    cases v with
                    | arr oqs =>
                      simp only [bind, Except.bind, pure, Except.pure] at h
                      have h2 := Except.ok.inj h
                      rw [Prod.mk.injEq] at h2
                      obtain ⟨hw, hres⟩ := h2
                      subst hw
                      subst hres
                      exact ⟨session, project, cvid, mods, _, hs, hp, hcv,
                        rfl, rfl, rfl⟩
                    | null => simp at h
                    | bool b => simp at h
                    | num q => simp at h
                    | str s => simp at h
                    | obj kvs3 => simp at h
                | null => simp at h
                | bool b => simp at h
                | num q => simp at h
                | str s => simp at h
                | arr xs => simp at h

/-- C1 counterexample: `Wstable`'s session 1 is `stable`, yet
`select_option` acts on it and moves it to `committed`, and `iterate`
acts on it and moves it to `iterating` — the code never guards on the
current state, so `stable` is not terminal and operations are not
rejected on a stable session. -/
theorem claim_C1_counterexample :
    stateOf Wstable 1 = some "stable"
    ∧ (resultWorld (select_option Wstable 1 1 "opt_1" rObjEmpty rGame)).map
        (fun w => stateOf w 1) = some (some "committed")
    ∧ (resultWorld (iterate Wstable 1 1 "make it faster" rObjEmpty)).map
        (fun w => stateOf w 1) = some (some "iterating") :=
  ⟨rfl, rfl, rfl⟩

/-- C1 (amended): the three operations never consult the current session
state; a successful `select_option` unconditionally sets the target
session's state to `committed`, a successful `iterate` to `iterating`,
and a successful `finish_exploration` to `stable` — each leaving every
other session untouched, so among these operations only the finish
action ever writes `stable`, but `stable` is not terminal and no
operation is rejected on a stable session. -/
theorem claim_C1_amended (w : World) (pid sid : Nat) (oid input : String)
    (rD rE rI rF : Reply) :
    (∀ w' res, select_option w pid sid oid rD rE = .ok (w', res) →
       stateOf w' sid = some "committed" ∧
       ∀ sid', sid' ≠ sid → stateOf w' sid' = stateOf w sid')
    ∧ (∀ w' res, iterate w pid sid input rI = .ok (w', res) →
       stateOf w' sid = some "iterating" ∧
       ∀ sid', sid' ≠ sid → stateOf w' sid' = stateOf w sid')
    ∧ (∀ w' res, finish_exploration w pid sid rF = .ok (w', res) →
       stateOf w' sid = some "stable" ∧
       ∀ sid', sid' ≠ sid → stateOf w' sid' = stateOf w sid') := by
  refine ⟨?_, ?_, ?_⟩
  · intro w' res h
    obtain ⟨session, fs, hs, hsess, _, _⟩ :=
      select_option_ok_shape w pid sid oid rD rE w' res h
    constructor
    · rw [stateOf, hsess, find?_update_eq w.sessions (fun s => s.id) sid
        (fun s =>
          { s with selected_option_id := some oid, state := "committed",
                   hypothesis_ledger := some (Json.obj
                     [("validated", .arr []), ("rejected", .arr []),
                      ("open_questions", .arr []), ("feel_spec", fs)]) })
        (fun b => rfl), hs]
      rfl
    · intro sid' hne
      rw [stateOf, stateOf, hsess, find?_update_ne w.sessions (fun s => s.id)
        sid sid'
        (fun s =>
          { s with selected_option_id := some oid, state := "committed",
                   hypothesis_ledger := some (Json.obj
                     [("validated", .arr []), ("rejected", .arr []),
                      ("open_questions", .arr []), ("feel_spec", fs)]) })
        (fun b => rfl) hne]
  · intro w' res h
    obtain ⟨session, project, cvid, mods, ledger2, hs, hp, hcv, hrI, hw,
      hres⟩ := iterate_ok_shape w pid sid input rI w' res h
    have hsess : w'.sessions = w.sessions.map (fun s =>
        if s.id == sid then
          { s with iteration_count := s.iteration_count + 1,
                   state := "iterating",
                   hypothesis_ledger := some ledger2 } else s) := by
      rw [hw]
    constructor
    · rw [stateOf, hsess, find?_update_eq w.sessions (fun s => s.id) sid
        (fun s =>
          { s with iteration_count := s.iteration_count + 1,
                   state := "iterating",
                   hypothesis_ledger := some ledger2 })
        (fun b => rfl), hs]
      rfl
    · intro sid' hne
      rw [stateOf, stateOf, hsess, find?_update_ne w.sessions (fun s => s.id)
        sid sid'
        (fun s =>
          { s with iteration_count := s.iteration_count + 1,
                   state := "iterating",
                   hypothesis_ledger := some ledger2 })
        (fun b => rfl) hne]
  · intro w' res h
    obtain ⟨session, hs, hsess, _, _⟩ :=
      finish_exploration_ok_shape w pid sid rF w' res h
    constructor
    · rw [stateOf, hsess, find?_update_eq w.sessions (fun s => s.id) sid
        (fun s => { s with state := "stable" }) (fun b => rfl), hs]
      rfl
    · intro sid' hne
      rw [stateOf, stateOf, hsess, find?_update_ne w.sessions (fun s => s.id)
        sid sid' (fun s => { s with state := "stable" }) (fun b => rfl) hne]

/-- Witness for the amended C1: the three operations applied to the
stable session of `Wstable`. -/
theorem claim_C1_witness :
    (stateOf c1_selWorld 1 = some "committed" ∧
     stateOf c1_selWorld 2 = stateOf Wstable 2)
    ∧ (stateOf c1_itWorld 1 = some "iterating" ∧
       stateOf c1_itWorld 2 = stateOf Wstable 2)
    ∧ (stateOf c1_finWorld 1 = some "stable" ∧
       stateOf c1_finWorld 2 = stateOf Wstable 2) := by
  have h := claim_C1_amended Wstable 1 1 "opt_1" "make it faster"
    rObjEmpty rGame rObjEmpty rObjEmpty
  refine ⟨?_, ?_, ?_⟩
  · have hsel := h.1 c1_selWorld c1_selRes rfl
    exact ⟨hsel.1, hsel.2 2 (by decide)⟩
  · have hit := h.2.1 c1_itWorld c1_itRes rfl
    exact ⟨hit.1, hit.2 2 (by decide)⟩
  · have hfin := h.2.2 c1_finWorld c1_finRes rfl
    exact ⟨hfin.1, hfin.2 2 (by decide)⟩

/-- C10: the version created by `iterate` holds exactly the file paths
of the project's current version before the call — a path appearing only
in the reasoning-service reply is never added, no existing path is
removed — and every path absent from the reply keeps the previous
version's content (the last stored row for that path) unchanged. -/
theorem claim_C10 (w : World) (pid sid : Nat) (input : String)
    (mods : List (String × Json)) (w' : World) (res : IterateResult)
    (project : ProjectRow) (cvid : Nat)
    (hp : w.projects.find? (fun p => p.id == pid) = some project)
    (hcv : project.current_version_id = some cvid)
    (hfresh : ∀ f ∈ w.files, f.version_id ≠ w.next_version_id)
    (h : iterate w pid sid input (some (.obj mods)) = .ok (w', res)) :
    (∀ pth,
      pth ∈ (w'.files.filter
        (fun f => f.version_id == res.version_id)).map (·.file_path) ↔
      pth ∈ (w.files.filter
        (fun f => f.version_id == cvid)).map (·.file_path))
    ∧ (∀ f ∈ w'.files.filter (fun f => f.version_id == res.version_id),
        Json.jlookup mods f.file_path = none →
        ((w.files.filter (fun g => g.version_id == cvid)).reverse.find?
            (fun g => g.file_path == f.file_path)).map (·.content) =
          some f.content)
    ∧ (∀ k,
        k ∉ (w.files.filter
          (fun f => f.version_id == cvid)).map (·.file_path) →
        k ∉ (w'.files.filter
          (fun f => f.version_id == res.version_id)).map (·.file_path)) := by
  obtain ⟨session, project', cvid', mods', ledger2, hs, hp', hcv', hrI, hw,
    hres⟩ := iterate_ok_shape w pid sid input (some (.obj mods)) w' res h
  rw [hp] at hp'
  have hproj : project = project' := Option.some.inj hp'
  subst hproj
  rw [hcv] at hcv'
  have hcv2 : cvid = cvid' := Option.some.inj hcv'
  subst hcv2
  have hmods : mods = mods' := Json.obj.inj (Option.some.inj hrI)
  subst hmods
  subst hw
  subst hres
  have hfilterold : w.files.filter
      (fun f => f.version_id == w.next_version_id) = [] := by
    rw [List.filter_eq_nil_iff]
    intro f hf
    simpa using hfresh f hf
  have hfilternew :
      (((w.files.filter (fun f => f.version_id == cvid)).foldl
          (fun m f => dictUpsert m f.file_path f.content) []).map (fun fc =>
        ({ version_id := w.next_version_id, file_path := fc.1,
           content := match Json.jlookup mods fc.1 with
                      | some (.str s) => s
                      | _ => fc.2,
           file_type := if pyEndsWith fc.1 ".html" then "text/html"
                        else "application/javascript" } : FileRow))).filter
        (fun f => f.version_id == w.next_version_id) =
      ((w.files.filter (fun f => f.version_id == cvid)).foldl
          (fun m f => dictUpsert m f.file_path f.content) []).map (fun fc =>
        ({ version_id := w.next_version_id, file_path := fc.1,
           content := match Json.jlookup mods fc.1 with
                      | some (.str s) => s
                      | _ => fc.2,
           file_type := if pyEndsWith fc.1 ".html" then "text/html"
                        else "application/javascript" } : FileRow)) := by
    rw [List.filter_eq_self]
    intro f hf
    obtain ⟨fc, _, rfl⟩ := List.mem_map.1 hf
    simp
  have hctx : (w.files.filter (fun f => f.version_id == cvid)).foldl
      (fun m f => dictUpsert m f.file_path f.content) [] =
      pyDictOf ((w.files.filter (fun f => f.version_id == cvid)).map
        (fun f => (f.file_path, f.content))) := by
    rw [pyDictOf, List.foldl_map]
  have hsplit : ∀ pth, (pth ∈ (({ w with
        sessions := w.sessions.map (fun s =>
          if s.id == sid then
            { s with iteration_count := s.iteration_count + 1,
                     state := "iterating",
                     hypothesis_ledger := some ledger2 } else s),
        projects := w.projects.map (fun p =>
          if p.id == pid then
            { p with current_version_id := some w.next_version_id } else p),
        versions := w.versions ++
          [{ id := w.next_version_id, project_id := pid,
             build_status := "success" }],
        files := w.files ++
          ((w.files.filter (fun f => f.version_id == cvid)).foldl
              (fun m f => dictUpsert m f.file_path f.content) []).map (fun fc =>
            { version_id := w.next_version_id, file_path := fc.1,
              content := match Json.jlookup mods fc.1 with
                         | some (.str s) => s
                         | _ => fc.2,
              file_type := if pyEndsWith fc.1 ".html" then "text/html"
                           else "application/javascript" }),
        next_version_id := w.next_version_id + 1 } : World).files.filter
        (fun f => f.version_id == w.next_version_id)).map (·.file_path)) ↔
      pth ∈ (w.files.filter
        (fun f => f.version_id == cvid)).map (·.file_path) := by
    intro pth
    rw [show (({ w with
        sessions := w.sessions.map (fun s =>
          if s.id == sid then
            { s with iteration_count := s.iteration_count + 1,
                     state := "iterating",
                     hypothesis_ledger := some ledger2 } else s),
        projects := w.projects.map (fun p =>
          if p.id == pid then
            { p with current_version_id := some w.next_version_id } else p),
        versions := w.versions ++
          [{ id := w.next_version_id, project_id := pid,
             build_status := "success" }],
        files := w.files ++
          ((w.files.filter (fun f => f.version_id == cvid)).foldl
              (fun m f => dictUpsert m f.file_path f.content) []).map (fun fc =>
            { version_id := w.next_version_id, file_path := fc.1,
              content := match Json.jlookup mods fc.1 with
                         | some (.str s) => s
                         | _ => fc.2,
              file_type := if pyEndsWith fc.1 ".html" then "text/html"
                           else "application/javascript" }),
        next_version_id := w.next_version_id + 1 } : World).files) =
      w.files ++ ((w.files.filter (fun f => f.version_id == cvid)).foldl
          (fun m f => dictUpsert m f.file_path f.content) []).map (fun fc =>
        { version_id := w.next_version_id, file_path := fc.1,
          content := match Json.jlookup mods fc.1 with
                     | some (.str s) => s
                     | _ => fc.2,
          file_type := if pyEndsWith fc.1 ".html" then "text/html"
                       else "application/javascript" }) from rfl,
      List.filter_append _ _, hfilterold, hfilternew]
    simp only [List.nil_append, List.map_map]
    rw [hctx]
    constructor
    · intro hmem
      have : pth ∈ (pyDictOf ((w.files.filter
          (fun f => f.version_id == cvid)).map
            (fun f => (f.file_path, f.content)))).map Prod.fst := hmem
      rw [mem_keys_pyDictOf] at this
      rw [List.map_map] at this
      exact this
    · intro hmem
      show pth ∈ (pyDictOf ((w.files.filter
          (fun f => f.version_id == cvid)).map
            (fun f => (f.file_path, f.content)))).map Prod.fst
      rw [mem_keys_pyDictOf, List.map_map]
      exact hmem
  have hfiltereq : ({ w with
        sessions := w.sessions.map (fun s =>
          if s.id == sid then
            { s with iteration_count := s.iteration_count + 1,
                     state := "iterating",
                     hypothesis_ledger := some ledger2 } else s),
        projects := w.projects.map (fun p =>
          if p.id == pid then
            { p with current_version_id := some w.next_version_id } else p),
        versions := w.versions ++
          [{ id := w.next_version_id, project_id := pid,
             build_status := "success" }],
        files := w.files ++ ((w.files.filter (fun f => f.version_id == cvid)).foldl
          (fun m f => dictUpsert m f.file_path f.content) []).map (fun fc =>
        ({ version_id := w.next_version_id, file_path := fc.1,
           content := match Json.jlookup mods fc.1 with
                      | some (.str s) => s
                      | _ => fc.2,
           file_type := if pyEndsWith fc.1 ".html" then "text/html"
                        else "application/javascript" } : FileRow)),
        next_version_id := w.next_version_id + 1 } : World).files.filter
      (fun f => f.version_id == w.next_version_id) = ((w.files.filter (fun f => f.version_id == cvid)).foldl
          (fun m f => dictUpsert m f.file_path f.content) []).map (fun fc =>
        ({ version_id := w.next_version_id, file_path := fc.1,
           content := match Json.jlookup mods fc.1 with
                      | some (.str s) => s
                      | _ => fc.2,
           file_type := if pyEndsWith fc.1 ".html" then "text/html"
                        else "application/javascript" } : FileRow)) := by
    rw [show ({ w with
        sessions := w.sessions.map (fun s =>
          if s.id == sid then
            { s with iteration_count := s.iteration_count + 1,
                     state := "iterating",
                     hypothesis_ledger := some ledger2 } else s),
        projects := w.projects.map (fun p =>
          if p.id == pid then
            { p with current_version_id := some w.next_version_id } else p),
        versions := w.versions ++
          [{ id := w.next_version_id, project_id := pid,
             build_status := "success" }],
        files := w.files ++ ((w.files.filter (fun f => f.version_id == cvid)).foldl
          (fun m f => dictUpsert m f.file_path f.content) []).map (fun fc =>
        ({ version_id := w.next_version_id, file_path := fc.1,
           content := match Json.jlookup mods fc.1 with
                      | some (.str s) => s
                      | _ => fc.2,
           file_type := if pyEndsWith fc.1 ".html" then "text/html"
                        else "application/javascript" } : FileRow)),
        next_version_id := w.next_version_id + 1 } : World).files =
      w.files ++ ((w.files.filter (fun f => f.version_id == cvid)).foldl
          (fun m f => dictUpsert m f.file_path f.content) []).map (fun fc =>
        ({ version_id := w.next_version_id, file_path := fc.1,
           content := match Json.jlookup mods fc.1 with
                      | some (.str s) => s
                      | _ => fc.2,
           file_type := if pyEndsWith fc.1 ".html" then "text/html"
                        else "application/javascript" } : FileRow)) from rfl,
      List.filter_append _ _, hfilterold, hfilternew, List.nil_append]
  refine ⟨hsplit, ?_, ?_⟩
  · intro f hf hnone
    replace hf : f ∈ ((w.files.filter (fun f => f.version_id == cvid)).foldl
          (fun m f => dictUpsert m f.file_path f.content) []).map (fun fc =>
        ({ version_id := w.next_version_id, file_path := fc.1,
           content := match Json.jlookup mods fc.1 with
                      | some (.str s) => s
                      | _ => fc.2,
           file_type := if pyEndsWith fc.1 ".html" then "text/html"
                        else "application/javascript" } : FileRow)) := by
      rw [← hfiltereq]
      exact hf
    obtain ⟨fc, hfc, rfl⟩ := List.mem_map.1 hf
    rw [hctx] at hfc
    have hlk : alookup (pyDictOf ((w.files.filter (fun f => f.version_id == cvid)).map (fun f => (f.file_path, f.content)))) fc.1 = some fc.2 :=
      alookup_eq_some_of_mem _ fc (nodup_keys_pyDictOf _) hfc
    rw [alookup_pyDictOf] at hlk
    rw [← List.map_reverse] at hlk
    rw [List.find?_map] at hlk
    rw [Option.map_map] at hlk
    have hnone2 : Json.jlookup mods fc.1 = none := hnone
    have hco : ((fun fc =>
        ({ version_id := w.next_version_id, file_path := fc.1,
           content := match Json.jlookup mods fc.1 with
                      | some (.str s) => s
                      | _ => fc.2,
           file_type := if pyEndsWith fc.1 ".html" then "text/html"
                        else "application/javascript" } : FileRow)) fc).content = fc.2 := by
      show (match Json.jlookup mods fc.1 with
            | some (.str s) => s
            | _ => fc.2) = fc.2
      rw [hnone2]
    rw [show some (((fun fc =>
        ({ version_id := w.next_version_id, file_path := fc.1,
           content := match Json.jlookup mods fc.1 with
                      | some (.str s) => s
                      | _ => fc.2,
           file_type := if pyEndsWith fc.1 ".html" then "text/html"
                        else "application/javascript" } : FileRow)) fc).content) = some fc.2 from
      congrArg some hco]
    exact hlk
  · intro k hkold hknew
    exact hkold ((hsplit k).1 hknew)

/-- Witness for C10 at the concrete iteration of `Wstable`. -/
theorem claim_C10_witness :
    (("index.html" ∈ (c1_itWorld.files.filter
        (fun f => f.version_id == c1_itRes.version_id)).map (·.file_path)) ↔
      ("index.html" ∈ (Wstable.files.filter
        (fun f => f.version_id == 10)).map (·.file_path)))
    ∧ ((Wstable.files.filter (fun g => g.version_id == 10)).reverse.find?
        (fun g => g.file_path == c1_itFile.file_path)).map (·.content) =
        some c1_itFile.content := by
  have h := claim_C10 Wstable 1 1 "make it faster" [] c1_itWorld c1_itRes
    { id := 1, current_version_id := some 10, status := "running" } 10
    rfl rfl (by decide) rfl
  exact ⟨h.1 "index.html", h.2.1 c1_itFile (by decide) rfl⟩

/-- C6 counterexample: `synthesize_branches` does not degrade to an
empty branch list when the reply is not valid JSON — the
`json.JSONDecodeError` raised inside `_call_openai_with_tools`
propagates out of the stage. -/
theorem claim_C6_counterexample :
    synthesize_branches none = .error "json.JSONDecodeError" := rfl

/-- C6 (amended): a reply that parses as JSON of the wrong shape
degrades to the sentinel (empty branch/option list; default `other`
intent, also when a JSON object fails model validation), and a
non-parseable reply degrades only in intent parsing; in the exploration
pipeline stages (`synthesize_branches`, `map_options`) a non-parseable
reply raises, and in `parse_intent` a parsed reply that is not a JSON
object raises a `TypeError`. -/
theorem claim_C6_amended (message : String) :
    (parse_intent none message = .ok (defaultIntent message))
    ∧ (∀ kvs, validateIntent kvs = none →
        parse_intent (some (.obj kvs)) message = .ok (defaultIntent message))
    ∧ (∀ j, (∀ kvs, j ≠ Json.obj kvs) →
        parse_intent (some j) message = .error "TypeError")
    ∧ (∀ kvs, Json.jlookup kvs "branches" = none →
        synthesize_branches (some (.obj kvs)) = .ok (.arr []))
    ∧ (∀ j, (∀ kvs, j ≠ Json.obj kvs) → (∀ xs, j ≠ Json.arr xs) →
        synthesize_branches (some j) = .ok (.arr []))
    ∧ (synthesize_branches none = .error "json.JSONDecodeError")
    ∧ (∀ j, (∀ kvs, j ≠ Json.obj kvs) → (∀ xs, j ≠ Json.arr xs) →
        map_options (some j) = .ok (.arr [], .null))
    ∧ (map_options none = .error "json.JSONDecodeError") := by
  refine ⟨rfl, ?_, ?_, ?_, ?_, rfl, ?_, rfl⟩
  · intro kvs hv
    simp only [parse_intent]
    rw [hv]
  · intro j hj
    cases j with
    | obj kvs => exact absurd rfl (hj kvs)
    | null => rfl
    | bool b => rfl
    | num q => rfl
    | str s => rfl
    | arr xs => rfl
  · intro kvs hlk
    simp only [synthesize_branches, call_openai_json, bind, Except.bind]
    rw [hlk]
    rfl
  · intro j hobj harr
    cases j with
    | obj kvs => exact absurd rfl (hobj kvs)
    | arr xs => exact absurd rfl (harr xs)
    | null => rfl
    | bool b => rfl
    | num q => rfl
    | str s => rfl
  · intro j hobj harr
    cases j with
    | obj kvs => exact absurd rfl (hobj kvs)
    | arr xs => exact absurd rfl (harr xs)
    | null => rfl
    | bool b => rfl
    | num q => rfl
    | str s => rfl

/-- Witness for the amended C6 at concrete malformed replies. -/
theorem claim_C6_witness :
    parse_intent (some (.obj [("intent_type", .num 1)])) "hi" =
      .ok (defaultIntent "hi")
    ∧ parse_intent (some (.arr [])) "hi" = .error "TypeError"
    ∧ synthesize_branches (some (.str "oops")) = .ok (.arr [])
    ∧ map_options (some (.num 3)) = .ok (.arr [], .null) := by
  have h := claim_C6_amended "hi"
  refine ⟨h.2.1 [("intent_type", .num 1)] rfl, ?_, ?_, ?_⟩
  · exact h.2.2.1 (.arr []) (fun kvs hk => Json.noConfusion hk)
  · exact h.2.2.2.2.1 (.str "oops") (fun kvs hk => Json.noConfusion hk)
      (fun xs hk => Json.noConfusion hk)
  · exact h.2.2.2.2.2.2.1 (.num 3) (fun kvs hk => Json.noConfusion hk)
      (fun xs hk => Json.noConfusion hk)

theorem dictUpsert_ne_nil {α : Type} (m : List (String × α)) (k : String)
    (v : α) : dictUpsert m k v ≠ [] := by
  cases m with
  | nil => simp [dictUpsert]
  | cons kv rest =>
    obtain ⟨k₀, v₀⟩ := kv
    by_cases h0 : k₀ = k <;> simp [dictUpsert, h0]

theorem pyTruthy_obj_of_ne_nil (kvs : List (String × Json)) (h : kvs ≠ []) :
    Json.pyTruthy (.obj kvs) = true := by
  cases kvs with
  | nil => exact absurd rfl h
  | cons kv rest => rfl

theorem jsonOrEmptyObj_setKey (kvs : List (String × Json)) (k : String)
    (v : Json) :
    jsonOrEmptyObj (some (.obj (Json.setKey kvs k v))) =
      .obj (Json.setKey kvs k v) := by
  have hne : Json.setKey kvs k v ≠ [] := dictUpsert_ne_nil kvs k v
  simp only [jsonOrEmptyObj]
  rw [if_pos (pyTruthy_obj_of_ne_nil _ hne)]

theorem pyMsgs_ok (l : List Json) (msgs : List Json)
    (h : pyMsgs l = .ok msgs) :
    msgs = l.map (fun e => e.getKeyD "message" (.str "")) := by
  induction l generalizing msgs with
  | nil =>
    simp only [pyMsgs] at h
    have := Except.ok.inj h
    simp [← this]
  | cons e rest ih =>
    cases e with
    | obj kvs =>
      simp only [pyMsgs] at h
      cases hr : pyMsgs rest with
      | error er =>
        rw [hr] at h
        simp [Except.map] at h
      | ok ms =>
        rw [hr] at h
        simp only [Except.map] at h
        have := Except.ok.inj h
        rw [List.map_cons, ← this, ih ms hr]
        rfl
    | null => simp [pyMsgs] at h
    | bool b => simp [pyMsgs] at h
    | num q => simp [pyMsgs] at h
    | str s => simp [pyMsgs] at h
    | arr xs => simp [pyMsgs] at h

/-- C4: for every runtime-fix request, if the cache entry's
fix_attempts counter is already at the ceiling of 2 or more the request
is rejected with an error regardless of the reasoning-service reply (so
no reply is ever consulted and no world is committed), and otherwise
every successful fix commits a cache entry whose fix_attempts counter is
exactly one larger and whose last_errors key records the messages of the
first five reported errors. -/
theorem claim_C4 (now : Int) (w : World) (sid : Nat) (oid : String)
    (errors : List Json) (row : KVRow)
    (hrow : w.kv.find? (fun r => r.cache_key == previewKey sid oid) =
      some row) :
    (fixAttemptsOf row.meta_json ≥ 2 →
      ∀ reply, fix_preview now w sid oid errors reply =
        .error "Max fix attempts reached")
    ∧ (∀ reply w' html,
        fix_preview now w sid oid errors reply = .ok (w', html) →
        ∃ row', w'.kv.find? (fun r => r.cache_key == previewKey sid oid) =
            some row' ∧
          fixAttemptsOf row'.meta_json = fixAttemptsOf row.meta_json + 1 ∧
          Json.getKey? (jsonOrEmptyObj row'.meta_json) "last_errors" =
            some (.arr ((errors.take 5).map
              (fun e => e.getKeyD "message" (.str ""))))) := by
  constructor
  · intro hge reply
    rcases hJ : jsonOrEmptyObj row.meta_json with _ | b | q | s | xs | kvs
    · exfalso
      unfold fixAttemptsOf at hge
      rw [hJ] at hge
      norm_num [Json.getKey?] at hge
    · exfalso
      unfold fixAttemptsOf at hge
      rw [hJ] at hge
      norm_num [Json.getKey?] at hge
    · exfalso
      unfold fixAttemptsOf at hge
      rw [hJ] at hge
      norm_num [Json.getKey?] at hge
    · exfalso
      unfold fixAttemptsOf at hge
      rw [hJ] at hge
      norm_num [Json.getKey?] at hge
    · exfalso
      unfold fixAttemptsOf at hge
      rw [hJ] at hge
      norm_num [Json.getKey?] at hge
    · rcases hlk : Json.jlookup kvs "fix_attempts" with _ | v
      · exfalso
        unfold fixAttemptsOf at hge
        rw [hJ] at hge
        simp only [Json.getKey?, hlk] at hge
        norm_num at hge
      · rcases hv : v.asNum with _ | q
        · exfalso
          unfold fixAttemptsOf at hge
          rw [hJ] at hge
          simp only [Json.getKey?, hlk, hv, Option.getD] at hge
          norm_num at hge
        · have hq : q ≥ 2 := by
            unfold fixAttemptsOf at hge
            rw [hJ] at hge
            simpa only [Json.getKey?, hlk, hv, Option.getD] using hge
          simp only [fix_preview]
          rw [hrow]
          simp only [bind, Except.bind, pure, Except.pure, hJ]
          rw [hlk]
          simp only [hv, bind, Except.bind, pure, Except.pure]
          rw [if_pos hq]
  · intro reply w' html h
    simp only [fix_preview] at h
    rw [hrow] at h
    simp only [bind, Except.bind, pure, Except.pure] at h
    rcases hJ : jsonOrEmptyObj row.meta_json with _ | b | q | s | xs | kvs
    · rw [hJ] at h
      simp at h
    · rw [hJ] at h
      simp at h
    · rw [hJ] at h
      simp at h
    · rw [hJ] at h
      simp at h
    · rw [hJ] at h
      simp at h
    · rw [hJ] at h
      simp only [bind, Except.bind, pure, Except.pure] at h
      rcases hlk : Json.jlookup kvs "fix_attempts" with _ | v
      · rw [hlk] at h
        simp only [bind, Except.bind, pure, Except.pure] at h
        rw [if_neg (by norm_num : ¬(0 : ℚ) ≥ 2)] at h
        cases hmsg : pyMsgs (errors.take 5) with
        | error er =>
          rw [hmsg] at h
          simp only [bind, Except.bind] at h
          simp at h
        | ok msgs =>
          rw [hmsg] at h
          simp only [bind, Except.bind] at h
          cases reply with
          | none =>
            simp only [call_openai_json, bind, Except.bind] at h
            simp at h
          | some jf =>
            simp only [call_openai_json, bind, Except.bind, pure,
              Except.pure] at h
            cases jf with
            | obj kvsF =>
              simp only [bind, Except.bind, pure, Except.pure] at h
              cases hH : htmlField (.obj kvsF) with
              | error e2 =>
                rw [hH] at h
                simp only [bind, Except.bind] at h
                simp at h
              | ok html2 =>
                rw [hH] at h
                simp only [bind, Except.bind] at h
                by_cases hh0 : html2 = ""
                · rw [if_pos hh0] at h
                  simp at h
                · rw [if_neg hh0] at h
                  have h2 := Except.ok.inj h
                  rw [Prod.mk.injEq] at h2
                  obtain ⟨hw, hhtml⟩ := h2
                  subst hw
                  apply Exists.intro
                    ({ row with
                        value_text := html2,
                        expires_at := some (now + 30),
                        meta_json := some (Json.obj (Json.setKey
                          (Json.setKey kvs "fix_attempts" (.num (0 + 1)))
                          "last_errors" (.arr msgs))) })
                  refine ⟨?_, ?_, ?_⟩
                  · show (w.kv.map (fun r =>
                        if r.cache_key == previewKey sid oid then
                          { r with
                              value_text := html2,
                              expires_at := some (now + 30),
                              meta_json := some (Json.obj (Json.setKey
                                (Json.setKey kvs "fix_attempts" (.num (0 + 1)))
                                "last_errors" (.arr msgs))) }
                        else r)).find?
                          (fun r => r.cache_key == previewKey sid oid) =
                        some ({ row with
                          value_text := html2,
                          expires_at := some (now + 30),
                          meta_json := some (Json.obj (Json.setKey
                            (Json.setKey kvs "fix_attempts" (.num (0 + 1)))
                            "last_errors" (.arr msgs))) })
                    rw [find?_update_eq w.kv (fun r => r.cache_key)
                      (previewKey sid oid)
                      (fun r =>
                        { r with value_text := html2,
                                 expires_at := some (now + 30),
                                 meta_json := some (Json.obj (Json.setKey
                                   (Json.setKey kvs "fix_attempts"
                                     (.num (0 + 1)))
                                   "last_errors" (.arr msgs))) })
                      (fun b => rfl), hrow]
                    rfl
                  · show fixAttemptsOf (some (Json.obj (Json.setKey
                        (Json.setKey kvs "fix_attempts" (.num (0 + 1)))
                        "last_errors" (.arr msgs)))) =
                      fixAttemptsOf row.meta_json + 1
                    unfold fixAttemptsOf
                    rw [jsonOrEmptyObj_setKey]
                    rw [hJ]
                    have hlk2 : alookup kvs "fix_attempts" = none := hlk
                    simp only [Json.getKey?, Json.jlookup, Json.setKey]
                    rw [alookup_dictUpsert]
                    rw [if_neg (by decide)]
                    rw [alookup_dictUpsert]
                    rw [if_pos rfl]
                    rw [hlk2]
                    simp [Json.asNum]
                  · show Json.getKey? (jsonOrEmptyObj (some (Json.obj
                        (Json.setKey
                          (Json.setKey kvs "fix_attempts" (.num (0 + 1)))
                          "last_errors" (.arr msgs)))))
                        "last_errors" =
                      some (.arr ((errors.take 5).map
                        (fun e => e.getKeyD "message" (.str ""))))
                    rw [jsonOrEmptyObj_setKey]
                    simp only [Json.getKey?, Json.jlookup, Json.setKey]
                    rw [alookup_dictUpsert]
                    rw [if_pos rfl]
                    rw [← pyMsgs_ok (errors.take 5) msgs hmsg]
            | null =>
              simp only [bind, Except.bind] at h
              simp at h
            | bool b2 =>
              simp only [bind, Except.bind] at h
              simp at h
            | num q2 =>
              simp only [bind, Except.bind] at h
              simp at h
            | str s2 =>
              simp only [bind, Except.bind] at h
              simp at h
            | arr xs2 =>
              simp only [bind, Except.bind] at h
              simp at h
      · rw [hlk] at h
        simp only [bind, Except.bind, pure, Except.pure] at h
        rcases hv : v.asNum with _ | q
        · rw [hv] at h
          simp only [bind, Except.bind] at h
          simp at h
        · rw [hv] at h
          simp only [bind, Except.bind, pure, Except.pure] at h
          by_cases hq : q ≥ 2
          · rw [if_pos hq] at h
            simp at h
          · rw [if_neg hq] at h
            cases hmsg : pyMsgs (errors.take 5) with
            | error er =>
              rw [hmsg] at h
              simp only [bind, Except.bind] at h
              simp at h
            | ok msgs =>
              rw [hmsg] at h
              simp only [bind, Except.bind] at h
              cases reply with
              | none =>
                simp only [call_openai_json, bind, Except.bind] at h
                simp at h
              | some jf =>
                simp only [call_openai_json, bind, Except.bind, pure,
                  Except.pure] at h
                cases jf with
                | obj kvsF =>
                  simp only [bind, Except.bind, pure, Except.pure] at h
                  cases hH : htmlField (.obj kvsF) with
                  | error e2 =>
                    rw [hH] at h
                    simp only [bind, Except.bind] at h
                    simp at h
                  | ok html2 =>
                    rw [hH] at h
                    simp only [bind, Except.bind] at h
                    by_cases hh0 : html2 = ""
                    · rw [if_pos hh0] at h
                      simp at h
                    · rw [if_neg hh0] at h
                      have h2 := Except.ok.inj h
                      rw [Prod.mk.injEq] at h2
                      obtain ⟨hw, hhtml⟩ := h2
                      subst hw
                      apply Exists.intro
                        ({ row with
                            value_text := html2,
                            expires_at := some (now + 30),
                            meta_json := some (Json.obj (Json.setKey
                              (Json.setKey kvs "fix_attempts" (.num (q + 1)))
                              "last_errors" (.arr msgs))) })
                      refine ⟨?_, ?_, ?_⟩
                      · show (w.kv.map (fun r =>
                            if r.cache_key == previewKey sid oid then
                              { r with
                                  value_text := html2,
                                  expires_at := some (now + 30),
                                  meta_json := some (Json.obj (Json.setKey
                                    (Json.setKey kvs "fix_attempts" (.num (q + 1)))
                                    "last_errors" (.arr msgs))) }
                            else r)).find?
                              (fun r => r.cache_key == previewKey sid oid) =
                            some ({ row with
                              value_text := html2,
                              expires_at := some (now + 30),
                              meta_json := some (Json.obj (Json.setKey
                                (Json.setKey kvs "fix_attempts" (.num (q + 1)))
                                "last_errors" (.arr msgs))) })
                        rw [find?_update_eq w.kv (fun r => r.cache_key)
                          (previewKey sid oid)
                          (fun r =>
                            { r with value_text := html2,
                                     expires_at := some (now + 30),
                                     meta_json := some (Json.obj (Json.setKey
                                       (Json.setKey kvs "fix_attempts"
                                         (.num (q + 1)))
                                       "last_errors" (.arr msgs))) })
                          (fun b => rfl), hrow]
                        rfl
                      · show fixAttemptsOf (some (Json.obj (Json.setKey
                            (Json.setKey kvs "fix_attempts" (.num (q + 1)))
                            "last_errors" (.arr msgs)))) =
                          fixAttemptsOf row.meta_json + 1
                        unfold fixAttemptsOf
                        rw [jsonOrEmptyObj_setKey]
                        rw [hJ]
                        have hlk2 : alookup kvs "fix_attempts" = some v := hlk
                        simp only [Json.getKey?, Json.jlookup, Json.setKey]
                        rw [alookup_dictUpsert]
                        rw [if_neg (by decide)]
                        rw [alookup_dictUpsert]
                        rw [if_pos rfl]
                        rw [hlk2]
                        simp only [Json.asNum] at hv
                        simp [Json.asNum, hv]
                      · show Json.getKey? (jsonOrEmptyObj (some (Json.obj
                            (Json.setKey
                              (Json.setKey kvs "fix_attempts" (.num (q + 1)))
                              "last_errors" (.arr msgs)))))
                            "last_errors" =
                          some (.arr ((errors.take 5).map
                            (fun e => e.getKeyD "message" (.str ""))))
                        rw [jsonOrEmptyObj_setKey]
                        simp only [Json.getKey?, Json.jlookup, Json.setKey]
                        rw [alookup_dictUpsert]
                        rw [if_pos rfl]
                        rw [← pyMsgs_ok (errors.take 5) msgs hmsg]
                | null =>
                  simp only [bind, Except.bind] at h
                  simp at h
                | bool b2 =>
                  simp only [bind, Except.bind] at h
                  simp at h
                | num q2 =>
                  simp only [bind, Except.bind] at h
                  simp at h
                | str s2 =>
                  simp only [bind, Except.bind] at h
                  simp at h
                | arr xs2 =>
                  simp only [bind, Except.bind] at h
                  simp at h

/-- Witness for C4: the exhausted row of Wkv2 makes any fix request
fail, and the concrete run c4_run on the fresh row of Wkv0 commits a row
with counter 1 and the reported message recorded. -/
theorem claim_C4_witness :
    (fix_preview 50 Wkv2 1 "opt_1" [] rGame =
      .error "Max fix attempts reached")
    ∧ ∃ row',
        c4World.kv.find? (fun r => r.cache_key == previewKey 1 "opt_1") =
          some row' ∧
        fixAttemptsOf row'.meta_json = fixAttemptsOf kv_meta0.meta_json + 1 ∧
        Json.getKey? (jsonOrEmptyObj row'.meta_json) "last_errors" =
          some (.arr ((c4_errors.take 5).map
            (fun e => e.getKeyD "message" (.str "")))) := by
  constructor
  · exact (claim_C4 50 Wkv2 1 "opt_1" [] kv_meta2 rfl).1
      (le_of_eq (by rfl)) rGame
  · exact (claim_C4 50 Wkv0 1 "opt_1" c4_errors kv_meta0 rfl).2
      rFixed c4World c4Html rfl

theorem find?_append_of_none {α : Type} (l₁ l₂ : List α) (p : α → Bool)
    (h : l₁.find? p = none) : (l₁ ++ l₂).find? p = l₂.find? p := by
  induction l₁ with
  | nil => simp
  | cons a rest ih =>
    cases ha : p a with
    | true => simp [List.find?_cons, ha] at h
    | false =>
      simp only [List.find?_cons, ha] at h
      simp only [List.cons_append, List.find?_cons, ha]
      exact ih h

theorem fixAttemptsOf_freshMeta (x y : Json) :
    fixAttemptsOf (some (.obj [("session_id", x), ("option_id", y)])) =
      0 := by
  unfold fixAttemptsOf
  simp [jsonOrEmptyObj, Json.pyTruthy, Json.getKey?, Json.jlookup, alookup]

/-- C5: a cache read after the entry's expiry instant has passed yields
none, exactly like a miss, so stale content is never returned; and on a
miss a successful preview_option commits a cache row holding the
generated content, expiring exactly 30 minutes past now, whose
metadata bag carries no fix_attempts key so the effective counter is
zero, with the content equal to the index.html field of the Stage-E
generate reply. -/
theorem claim_C5 (now : Int) (w : World) (sid : Nat) (oid : String)
    (rD rE : Reply) :
    (∀ row t,
        w.kv.find? (fun r => r.cache_key == previewKey sid oid) =
          some row →
        row.expires_at = some t → t < now →
        get_cached_preview now w (previewKey sid oid) = none)
    ∧ (get_cached_preview now w (previewKey sid oid) = none →
       ∀ w' html, preview_option now w sid oid rD rE = .ok (w', html) →
         ∃ row',
           w'.kv.find? (fun r => r.cache_key == previewKey sid oid) =
             some row' ∧
           row'.expires_at = some (now + 30) ∧
           fixAttemptsOf row'.meta_json = 0 ∧
           row'.value_text = html ∧
           ∃ generated, generate_game rE = .ok generated ∧
             htmlField generated = .ok html) := by
  constructor
  · intro row t hrow hexp hlt
    unfold get_cached_preview
    rw [hrow]
    show (match row.expires_at with
      | some t => if t < now then none else some row.value_text
      | none => some row.value_text) = none
    rw [hexp]
    show (if t < now then none else some row.value_text) = none
    rw [if_pos hlt]
  · intro hmiss w' html h
    simp only [preview_option] at h
    rw [hmiss] at h
    simp only [bind, Except.bind, pure, Except.pure] at h
    cases hs : w.sessions.find? (fun s => s.id == sid) with
    | none =>
      rw [hs] at h
      simp at h
    | some srow =>
      rw [hs] at h
      simp only [bind, Except.bind, pure, Except.pure] at h
      cases ho : w.options.find? (fun o =>
          o.session_id == sid && o.option_id == oid) with
      | none =>
        rw [ho] at h
        simp at h
      | some orow =>
        rw [ho] at h
        simp only [bind, Except.bind, pure, Except.pure] at h
        cases hf : generate_feel_spec rD with
        | error e =>
          rw [hf] at h
          simp only [bind, Except.bind] at h
          simp at h
        | ok fs =>
          rw [hf] at h
          simp only [bind, Except.bind, pure, Except.pure] at h
          cases hg : generate_game rE with
          | error e =>
            rw [hg] at h
            simp only [bind, Except.bind] at h
            simp at h
          | ok generated =>
            rw [hg] at h
            simp only [bind, Except.bind, pure, Except.pure] at h
            cases hH : htmlField generated with
            | error e =>
              rw [hH] at h
              simp only [bind, Except.bind] at h
              simp at h
            | ok html2 =>
              rw [hH] at h
              simp only [bind, Except.bind, pure, Except.pure] at h
              by_cases hh0 : html2 = ""
              · rw [if_pos hh0] at h
                simp at h
              · rw [if_neg hh0] at h
                by_cases hany : w.kv.any
                    (fun r => r.cache_key == previewKey sid oid) = true
                · rw [if_pos hany] at h
                  have hp := Except.ok.inj h
                  rw [Prod.mk.injEq] at hp
                  obtain ⟨hw, hres⟩ := hp
                  subst hres
                  subst hw
                  cases hr0 : w.kv.find?
                      (fun r => r.cache_key == previewKey sid oid) with
                  | none =>
                    exfalso
                    rw [List.find?_eq_none] at hr0
                    obtain ⟨x, hx, hpx⟩ := List.any_eq_true.mp hany
                    exact (hr0 x hx) hpx
                  | some r₀ =>
                    apply Exists.intro ({ r₀ with
                      value_text := html2,
                      expires_at := some (now + 30),
                      meta_json := some (Json.obj
                        [("session_id", Json.num sid),
                         ("option_id", Json.str oid)]) })
                    refine ⟨?_, rfl, ?_, rfl, generated, rfl, hH⟩
                    · show (w.kv.map (fun r =>
                          if r.cache_key == previewKey sid oid then
                            { r with
                                value_text := html2,
                                expires_at := some (now + 30),
                                meta_json := some (Json.obj
                                  [("session_id", Json.num sid),
                                   ("option_id", Json.str oid)]) }
                          else r)).find?
                            (fun r => r.cache_key == previewKey sid oid) =
                          some ({ r₀ with
                            value_text := html2,
                            expires_at := some (now + 30),
                            meta_json := some (Json.obj
                              [("session_id", Json.num sid),
                               ("option_id", Json.str oid)]) })
                      rw [find?_update_eq w.kv (fun r => r.cache_key)
                        (previewKey sid oid)
                        (fun r =>
                          { r with
                              value_text := html2,
                              expires_at := some (now + 30),
                              meta_json := some (Json.obj
                                [("session_id", Json.num sid),
                                 ("option_id", Json.str oid)]) })
                        (fun b => rfl), hr0]
                      rfl
                    · exact fixAttemptsOf_freshMeta _ _
                · rw [if_neg hany] at h
                  have hp := Except.ok.inj h
                  rw [Prod.mk.injEq] at hp
                  obtain ⟨hw, hres⟩ := hp
                  subst hres
                  subst hw
                  have hnone : w.kv.find?
                      (fun r => r.cache_key == previewKey sid oid) = none := by
                    rw [List.find?_eq_none]
                    intro x hx
                    intro hpx
                    exact hany (List.any_eq_true.mpr ⟨x, hx, hpx⟩)
                  apply Exists.intro
                    (⟨previewKey sid oid, html2,
                      some (Json.obj
                        [("session_id", Json.num sid),
                         ("option_id", Json.str oid)]),
                      some (now + 30)⟩ : KVRow)
                  refine ⟨?_, rfl, ?_, rfl, generated, rfl, hH⟩
                  · rw [find?_append_of_none w.kv _ _ hnone]
                    simp [List.find?_cons]
                  · exact fixAttemptsOf_freshMeta _ _

/-- Witness for C5: the expired row of Wexp is invisible to the cache
read at now = 50, and the concrete regeneration run on Wexp commits a
fresh row expiring at 80 with a zero fix-attempt counter. -/
theorem claim_C5_witness :
    get_cached_preview 50 Wexp (previewKey 1 "opt_1") = none
    ∧ ∃ row',
        c5World.kv.find? (fun r => r.cache_key == previewKey 1 "opt_1") =
          some row' ∧
        row'.expires_at = some (50 + 30) ∧
        fixAttemptsOf row'.meta_json = 0 ∧
        row'.value_text = c5Html ∧
        ∃ generated, generate_game rGame = .ok generated ∧
          htmlField generated = .ok c5Html := by
  constructor
  · exact (claim_C5 50 Wexp 1 "opt_1" rObjEmpty rGame).1 kv_expired 10
      rfl rfl (by norm_num)
  · exact (claim_C5 50 Wexp 1 "opt_1" rObjEmpty rGame).2 rfl
      c5World c5Html rfl

end SPG
